import Mathlib

/-!
Verification of the bigbeans dynamic-schema persistence layer
(`bigbeans/databean.py`) against its natural-language specification.

The development shallowly embeds the schema-inference and query-construction
core: Python runtime values and their types, the type-mapping tables, the four
query builders, and the `Table`/`Databean` operations.  Asynchronous methods
are modelled as pure functions; the connection-pool collaborator is an oracle
(`Conn`) of response functions, and every operation additionally returns the
list of I/O effects it performed, in order.
-/

/-- Runtime type of a Python value, as produced by `type(value)`.  The
constructors cover exactly the classes appearing as keys of `TYPE_MAPPING`
in the source, plus `tDict` (the concrete class of Python mapping values),
`tNoneType`, and a catch-all `tOther` for any further runtime type.
`tMappingABC` is the abstract base class `collections.abc.Mapping` itself:
it is listed as a key of `TYPE_MAPPING`, but no Python value has it as its
exact runtime type (instances of mappings have concrete classes such as
`dict`). -/
inductive PyType where
  | tList
  | tStr
  | tBool
  | tBytes
  | tInt
  | tFloat
  | tTuple
  | tMappingABC
  | tDict
  | tRange
  | tRecord
  | tBitString
  | tBox
  | tCircle
  | tLine
  | tLineSegment
  | tPath
  | tPoint
  | tPolygon
  | tDecimal
  | tIPv4Network
  | tIPv6Network
  | tIPv4Interface
  | tIPv6Interface
  | tIPv4Address
  | tIPv6Address
  | tUUID
  | tDate
  | tTime
  | tDatetime
  | tNoneType
  | tOther (typeName : String)
deriving DecidableEq

/-- A Python runtime value, carrying payloads only where the claims need
them.  `pyDict` is an ordered key-value mapping value such as a `dict`
literal; `pyOther` is a value of any runtime type outside the modelled
ones. -/
inductive PyVal where
  | pyStr (s : String)
  | pyBool (b : Bool)
  | pyBytes
  | pyInt (n : Int)
  | pyFloat
  | pyList
  | pyTuple
  | pyDict (entries : List (String × PyVal))
  | pyRange
  | pyRecord
  | pyBitString
  | pyBox
  | pyCircle
  | pyLine
  | pyLineSegment
  | pyPath
  | pyPoint
  | pyPolygon
  | pyDecimal
  | pyIPv4Network
  | pyIPv6Network
  | pyIPv4Interface
  | pyIPv6Interface
  | pyIPv4Address
  | pyIPv6Address
  | pyUUID
  | pyDate
  | pyTime
  | pyDatetime
  | pyNone
  | pyOther (typeName : String)

/-- Exact runtime type of a value, as `type(value)` computes it.  Note that
`type` of a mapping value such as a `dict` is the concrete class `dict`,
never the abstract base class `collections.abc.Mapping`. -/
def type_of : PyVal → PyType
  | .pyStr _ => .tStr
  | .pyBool _ => .tBool
  | .pyBytes => .tBytes
  | .pyInt _ => .tInt
  | .pyFloat => .tFloat
  | .pyList => .tList
  | .pyTuple => .tTuple
  | .pyDict _ => .tDict
  | .pyRange => .tRange
  | .pyRecord => .tRecord
  | .pyBitString => .tBitString
  | .pyBox => .tBox
  | .pyCircle => .tCircle
  | .pyLine => .tLine
  | .pyLineSegment => .tLineSegment
  | .pyPath => .tPath
  | .pyPoint => .tPoint
  | .pyPolygon => .tPolygon
  | .pyDecimal => .tDecimal
  | .pyIPv4Network => .tIPv4Network
  | .pyIPv6Network => .tIPv6Network
  | .pyIPv4Interface => .tIPv4Interface
  | .pyIPv6Interface => .tIPv6Interface
  | .pyIPv4Address => .tIPv4Address
  | .pyIPv6Address => .tIPv6Address
  | .pyUUID => .tUUID
  | .pyDate => .tDate
  | .pyTime => .tTime
  | .pyDatetime => .tDatetime
  | .pyNone => .tNoneType
  | .pyOther s => .tOther s

/-- The `TYPE_MAPPING` dictionary of the source, in source order. -/
def TYPE_MAPPING : List (PyType × String) :=
  [ (.tList, "anyarray"),
    (.tStr, "text"),
    (.tBool, "bool"),
    (.tBytes, "bytea"),
    (.tInt, "bigint"),
    (.tFloat, "float8"),
    (.tTuple, "record"),
    (.tMappingABC, "record"),
    (.tRange, "anyrange"),
    (.tRecord, "record"),
    (.tBitString, "varbit"),
    (.tBox, "box"),
    (.tCircle, "circle"),
    (.tLine, "line"),
    (.tLineSegment, "lseg"),
    (.tPath, "path"),
    (.tPoint, "point"),
    (.tPolygon, "polygon"),
    (.tDecimal, "numeric"),
    (.tIPv4Network, "inet"),
    (.tIPv6Network, "inet"),
    (.tIPv4Interface, "inet"),
    (.tIPv6Interface, "inet"),
    (.tIPv4Address, "inet"),
    (.tIPv6Address, "inet"),
    (.tUUID, "uuid"),
    (.tDate, "date"),
    (.tTime, "timestamp"),
    (.tDatetime, "timestamptz") ]

/-- Association-list lookup by runtime type. -/
def lookupType (t : PyType) : List (PyType × String) → Option String
  | [] => none
  | (k, s) :: rest => if k = t then some s else lookupType t rest

/-- The `VALID_TYPE_MAPPING` defaultdict of the source: the entries of
`TYPE_MAPPING`, with default `"text"` for any key not present. -/
def VALID_TYPE_MAPPING (t : PyType) : String :=
  match lookupType t TYPE_MAPPING with
  | some s => s
  | none => "text"

/-- Column type tag of a value: `VALID_TYPE_MAPPING[type(value)]`, the lookup
performed by `Table._ensure_beans`. -/
def map_type (v : PyVal) : String :=
  VALID_TYPE_MAPPING (type_of v)

/-- Python `sep.join(parts)`. -/
def pyJoin (sep : String) : List String → String
  | [] => ""
  | [x] => x
  | x :: xs => x ++ sep ++ pyJoin sep xs

/-- Python `enumerate(xs, start)`. -/
def pyEnumerate (start : Nat) : List α → List (Nat × α)
  | [] => []
  | x :: xs => (start, x) :: pyEnumerate (start + 1) xs

/-- A row returned by the collaborator (an `asyncpg.Record`): a read-only
ordered mapping of column name to value. -/
abbrev Row : Type := List (String × PyVal)

/-- Error kinds reported by the connection collaborator.  The source
distinguishes only `asyncpg.UndefinedTableError` from everything else. -/
inductive DbError where
  | undefinedTable
  | otherDb (msg : String)

/-- Python-level failures an operation can end in. -/
inductive PyErr where
  | beans (msg : String)
  | db (e : DbError)
  | attributeError (msg : String)
  | indexError
  | keyError

/-- One I/O action against the collaborator, in the order performed.
`acquire` is taken from the pool by an `async with pool.acquire()` block. -/
inductive Effect where
  | acquire
  | fetchrow (sql : String) (params : List PyVal)
  | fetch (sql : String) (params : List PyVal)
  | execute (sql : String) (params : List PyVal)

/-- The connection-pool collaborator, as an oracle of response functions:
what `connection.fetchrow`, `connection.fetch` and `connection.execute`
return for a given statement and parameter list. -/
structure Conn where
  fetchrow : String → List PyVal → Except DbError (Option Row)
  fetch : String → List PyVal → Except DbError (List Row)
  execute : String → List PyVal → Except DbError Unit

/-- Python truthiness of an optional row: `None` is falsy, and a Record is
truthy exactly when it has at least one column (Records implement `__len__`
and no `__bool__`). -/
def rowTruthy : Option Row → Bool
  | none => false
  | some r => !(List.isEmpty r)

/-- Lift a collaborator execution result into an operation result. -/
def execResult : Except DbError Unit → Except PyErr Unit
  | .ok _ => .ok ()
  | .error e => .error (.db e)

/-- The catalog-existence probe issued by `Table._ensure_beans`. -/
def pg_tables_query : String :=
  "SELECT * FROM pg_tables WHERE tablename = $1"

/-- The CREATE TABLE statement built by `Table._ensure_beans` when the
catalog probe finds no table, byte-for-byte including the indentation of
the Python triple-quoted f-string. -/
def create_query (name : String) (to_bean : List (String × PyVal)) : String :=
  let table_details := to_bean.map (fun kv => kv.1 ++ " " ++ VALID_TYPE_MAPPING (type_of kv.2))
  let joined := pyJoin ",\n                    " table_details
  "\n                    CREATE TABLE " ++ name ++
    "(\n                        _id serial PRIMARY KEY,\n                        " ++
    joined ++ "\n                    );\n                    "

/-- The ALTER TABLE statement built by `Table._ensure_beans` when the table
already exists, byte-for-byte. -/
def alter_query (name : String) (to_bean : List (String × PyVal)) : String :=
  let table_details := to_bean.map
    (fun kv => "ADD COLUMN IF NOT EXISTS " ++ kv.1 ++ " " ++ VALID_TYPE_MAPPING (type_of kv.2))
  let column_query_as_string := pyJoin ",\n" table_details
  "\n                    ALTER TABLE " ++ name ++ "\n                    " ++
    column_query_as_string ++ ";\n                    "

/-- `Table._build_insert_query`. -/
def build_insert_query (name : String) (kwargs : List (String × PyVal)) : String :=
  let query_names := "(" ++ pyJoin ", " (kwargs.map Prod.fst) ++ ")"
  let query_values :=
    "(" ++ pyJoin ", " ((List.range kwargs.length).map (fun i => "$" ++ toString (i + 1))) ++ ")"
  "INSERT INTO " ++ name ++ query_names ++ " VALUES" ++ query_values

/-- `Table._build_select_query`.  The Python body indexes
`list(kwargs.keys())[0]`, which raises `IndexError` on an empty keyword
set; that error path is modelled explicitly. -/
def build_select_query (name : String) (kwargs : List (String × PyVal)) :
    Except PyErr String :=
  match kwargs with
  | [] => .error .indexError
  | (k0, _) :: rest =>
    let base := "SELECT * FROM " ++ name ++ " WHERE " ++ k0 ++ " = $1"
    if rest.isEmpty then .ok base
    else
      let additional_constraints :=
        (pyEnumerate 2 (rest.map Prod.fst)).map
          (fun p => " AND " ++ p.2 ++ " = $" ++ toString p.1)
      .ok (base ++ pyJoin " " additional_constraints ++ ";")

/-- `Table._build_update_query`: returns the statement and the parameter
list.  Note the source enumerates the WHERE constraints starting at
`len(matched_values.keys()) + 1` (not after all SET placeholders) and joins
them with a comma. -/
def build_update_query (name : String) (matchKeys : List String)
    (kwargs : List (String × PyVal)) : String × List PyVal :=
  let matched_values := kwargs.filter (fun kv => matchKeys.contains kv.1)
  let query_values :=
    pyJoin ", " ((pyEnumerate 0 (kwargs.map Prod.fst)).map
      (fun p => p.2 ++ " = $" ++ toString (p.1 + 1)))
  let constraint_values :=
    (pyEnumerate (matched_values.length + 1) (matched_values.map Prod.fst)).map
      (fun p => p.2 ++ " = $" ++ toString (p.1 + 1))
  let query := "UPDATE " ++ name ++ " SET " ++ query_values ++ " WHERE " ++
    pyJoin ", " constraint_values ++ ";"
  (query, kwargs.map Prod.snd ++ matched_values.map Prod.snd)

namespace Table

/-- `Table._ensure_beans`: probe the catalog for the table, then execute
CREATE TABLE (absent) or ALTER TABLE (present). -/
def ensure_beans (conn : Conn) (name : String) (to_bean : List (String × PyVal)) :
    Except PyErr Unit × List Effect :=
  match conn.fetchrow pg_tables_query [.pyStr name] with
  | .error e =>
    (.error (.db e), [.acquire, .fetchrow pg_tables_query [.pyStr name]])
  | .ok results =>
    if rowTruthy results then
      let q := alter_query name to_bean
      (execResult (conn.execute q []),
        [.acquire, .fetchrow pg_tables_query [.pyStr name], .execute q []])
    else
      let q := create_query name to_bean
      (execResult (conn.execute q []),
        [.acquire, .fetchrow pg_tables_query [.pyStr name], .execute q []])

/-- `Table.all`: select every row, recovering from a missing table. -/
def all (conn : Conn) (name : String) : Except PyErr (List Row) × List Effect :=
  let q := "SELECT * FROM " ++ name ++ ";"
  (match conn.fetch q [] with
   | .ok rows => .ok rows
   | .error .undefinedTable => .ok []
   | .error e => .error (.db e),
   [.acquire, .fetch q []])

/-- `Table.find`: filtered select, or a delegation to `all` when no filter
is given; `UndefinedTableError` is recovered as an empty list. -/
def find (conn : Conn) (name : String) (kwargs : List (String × PyVal)) :
    Except PyErr (List Row) × List Effect :=
  if kwargs.isEmpty then
    let r := all conn name
    (match r.1 with
     | .error (.db .undefinedTable) => .ok []
     | x => x,
     .acquire :: r.2)
  else
    match build_select_query name kwargs with
    | .error e => (.error e, [.acquire])
    | .ok q =>
      (match conn.fetch q (kwargs.map Prod.snd) with
       | .ok rows => .ok rows
       | .error .undefinedTable => .ok []
       | .error e => .error (.db e),
       [.acquire, .fetch q (kwargs.map Prod.snd)])

/-- `Table.find_one`: single-row select (`LIMIT 1` when unfiltered);
`UndefinedTableError` is recovered as `none`. -/
def find_one (conn : Conn) (name : String) (kwargs : List (String × PyVal)) :
    Except PyErr (Option Row) × List Effect :=
  if kwargs.isEmpty then
    let q := "SELECT * FROM " ++ name ++ " LIMIT 1;"
    (match conn.fetchrow q [] with
     | .ok r => .ok r
     | .error .undefinedTable => .ok none
     | .error e => .error (.db e),
     [.acquire, .fetchrow q []])
  else
    match build_select_query name kwargs with
    | .error e => (.error e, [.acquire])
    | .ok q =>
      (match conn.fetchrow q (kwargs.map Prod.snd) with
       | .ok r => .ok r
       | .error .undefinedTable => .ok none
       | .error e => .error (.db e),
       [.acquire, .fetchrow q (kwargs.map Prod.snd)])

/-- Message of the `BeansError` raised by `Table.insert` on an empty record. -/
def insert_nothing_msg : String :=
  "Bad insert call - you attempted to insert nothing. Don\x27t do this."

/-- Message of the `BeansError` raised by `Table.update` on an empty record. -/
def update_nothing_msg : String :=
  "Bad upsert call - you attempted to update nothing. Don\x27t do this."

/-- Message of the `BeansError` raised by `Table.upsert` on an empty record. -/
def upsert_nothing_msg : String :=
  "Bad upsert call - you attempted to upsert nothing. Don\x27t do this."

/-- `Table.insert`: reject an empty record, ensure schema, then execute the
insert statement with the record values as parameters. -/
def insert (conn : Conn) (name : String) (kwargs : List (String × PyVal)) :
    Except PyErr Unit × List Effect :=
  if kwargs.isEmpty then (.error (.beans insert_nothing_msg), [])
  else
    let e := ensure_beans conn name kwargs
    match e.1 with
    | .error err => (.error err, e.2)
    | .ok _ =>
      let q := build_insert_query name kwargs
      (execResult (conn.execute q (kwargs.map Prod.snd)),
        e.2 ++ [.acquire, .execute q (kwargs.map Prod.snd)])

/-- `Table.update`: reject an empty record, ensure schema, then execute the
update statement built by `build_update_query`. -/
def update (conn : Conn) (name : String) (matchKeys : List String)
    (kwargs : List (String × PyVal)) : Except PyErr Unit × List Effect :=
  if kwargs.isEmpty then (.error (.beans update_nothing_msg), [])
  else
    let e := ensure_beans conn name kwargs
    match e.1 with
    | .error err => (.error err, e.2)
    | .ok _ =>
      let qv := build_update_query name matchKeys kwargs
      (execResult (conn.execute qv.1 qv.2),
        e.2 ++ [.acquire, .execute qv.1 qv.2])

/-- `Table.upsert`: reject an empty record, ensure schema, look up an
existing row by the match keys restricted to the record, then delegate to
`update` (with `"_id"` appended to the match keys) or `insert`. -/
def upsert (conn : Conn) (name : String) (matchKeys : List String)
    (kwargs : List (String × PyVal)) : Except PyErr Unit × List Effect :=
  if kwargs.isEmpty then (.error (.beans upsert_nothing_msg), [])
  else
    let e := ensure_beans conn name kwargs
    match e.1 with
    | .error err => (.error err, e.2)
    | .ok _ =>
      let matching_kwargs := kwargs.filter (fun kv => matchKeys.contains kv.1)
      let f := find_one conn name matching_kwargs
      match f.1 with
      | .error err => (.error err, e.2 ++ f.2)
      | .ok found =>
        if rowTruthy found then
          let u := update conn name (matchKeys ++ ["_id"]) kwargs
          (u.1, e.2 ++ f.2 ++ u.2)
        else
          let i := insert conn name kwargs
          (i.1, e.2 ++ f.2 ++ i.2)

/-- `Table.delete`.  With keyword filters the source evaluates
`self._build_select_query(**kwargs).replace("SELECT *", "DELETE", 1)`
before awaiting: `_build_select_query(**kwargs)` is an un-awaited coroutine
object, which has no `replace` attribute, so the call raises
`AttributeError` before any statement is executed.  Without filters an
unconditional DELETE is executed. -/
def delete (conn : Conn) (name : String) (kwargs : List (String × PyVal)) :
    Except PyErr Unit × List Effect :=
  if kwargs.isEmpty then
    let q := "DELETE FROM " ++ name ++ ";"
    (execResult (conn.execute q []), [.acquire, .execute q []])
  else
    (.error (.attributeError "\x27coroutine\x27 object has no attribute \x27replace\x27"),
      [.acquire])

end Table

/-- State of the `Databean` registry.  `tables` models the `_tables` dict
mapping table names to cached `Table` handles; a handle is identified by
the serial number `next` held when it was constructed, so that two `Table`
objects constructed at different times are distinguishable (Python object
identity). -/
structure Bean where
  tables : List (String × Nat)
  next : Nat

/-- First-match association lookup, as a Python dict lookup (dict keys are
unique, so first match is the only match). -/
def lookupHandle (key : String) : List (String × Nat) → Option Nat
  | [] => none
  | (k, h) :: rest => if k = key then some h else lookupHandle key rest

/-- Python `del d[key]` on the handle cache: removes the (unique) entry. -/
def removeHandle (key : String) : List (String × Nat) → List (String × Nat)
  | [] => []
  | (k, h) :: rest => if k = key then rest else (k, h) :: removeHandle key rest

namespace Databean

/-- `Databean.__getitem__`: construct and cache a `Table` handle on first
access, return the cached handle afterwards.  Returns the new registry
state and the handle. -/
def getitem (st : Bean) (key : String) : Bean × Nat :=
  match lookupHandle key st.tables with
  | some h => (st, h)
  | none => (⟨st.tables ++ [(key, st.next)], st.next + 1⟩, st.next)

end Databean

namespace Table

/-- `Table.drop`: execute `DROP TABLE <name>;`, then delete the handle from
the registry cache.  If the execution raises, the `del` is never reached
and the cache is unchanged; if the handle is not cached the `del` raises
`KeyError`. -/
def drop (conn : Conn) (st : Bean) (name : String) :
    (Except PyErr Unit × Bean) × List Effect :=
  let q := "DROP TABLE " ++ name ++ ";"
  match conn.execute q [] with
  | .error e => ((.error (.db e), st), [.acquire, .execute q []])
  | .ok _ =>
    match lookupHandle name st.tables with
    | none => ((.error .keyError, st), [.acquire, .execute q []])
    | some _ => ((.ok (), ⟨removeHandle name st.tables, st.next⟩),
        [.acquire, .execute q []])

end Table

/-- Catalog state of the database: each existing table with its column
names in order.  Modelled from the spec: the collaborator exposes catalog
introspection and executes DDL; row contents are not modelled. -/
def Db : Type := List (String × List String)

/-- Catalog lookup for a table name. -/
def tableCols (name : String) : Db → Option (List String)
  | [] => none
  | (n, cs) :: rest => if n = name then some cs else tableCols name rest

/-- Modelled from the spec: one `ADD COLUMN IF NOT EXISTS` sub-command,
which adds the column only when no column of that name exists. -/
def addColIfNotExists (cols : List String) (k : String) : List String :=
  if cols.contains k then cols else cols ++ [k]

/-- Modelled from the spec: an `ALTER TABLE` statement made of one
`ADD COLUMN IF NOT EXISTS` sub-command per record key, applied in order. -/
def alterCols (cols : List String) (ks : List String) : List String :=
  ks.foldl addColIfNotExists cols

/-- Replace the column list of an existing table in the catalog. -/
def setTable (name : String) (cols : List String) : Db → Db
  | [] => []
  | (n, cs) :: rest =>
    if n = name then (name, cols) :: rest
    else (n, cs) :: setTable name cols rest

/-- `Table._ensure_beans` acting on the catalog model: probe the catalog;
when absent, execute the CREATE TABLE statement (creating `_id` plus one
column per record key); when present, execute the ALTER TABLE statement
(adding each missing record key).  The statement strings are the ones the
source builds; the catalog transition is modelled from the spec of the
collaborator DDL semantics. -/
def ensure_step (db : Db) (name : String) (record : List (String × PyVal)) :
    Db × String :=
  match tableCols name db with
  | none =>
    ((name, "_id" :: record.map Prod.fst) :: db, create_query name record)
  | some cols =>
    (setTable name (alterCols cols (record.map Prod.fst)) db, alter_query name record)

/-!
SQL tokenisation.  The spec quotes statements schematically (it writes
`<k1>=$1` where the source emits `k1 = $1`), so statement-shape claims are
settled at the level of SQL tokens: maximal runs of non-separator
characters, where whitespace and the punctuation `; , ( )` separate
tokens.
-/

/-- Characters that separate SQL tokens. -/
def isSepChar (c : Char) : Bool :=
  c = ' ' || c = '\n' || c = ';' || c = ',' || c = '(' || c = ')'

/-- Flush the (reversed) token accumulator. -/
def flushAcc (cur : List Char) : List (List Char) :=
  if cur.isEmpty then [] else [cur.reverse]

/-- Tokeniser worker: `cur` is the current token, reversed. -/
def toksGo : List Char → List Char → List (List Char)
  | [], cur => flushAcc cur
  | c :: cs, cur =>
    if isSepChar c then flushAcc cur ++ toksGo cs []
    else toksGo cs (c :: cur)

/-- SQL tokens of a statement string. -/
def toks (s : String) : List (List Char) :=
  toksGo s.data []

/-- Characters of a string, used to write expected token lists. -/
def w (s : String) : List Char := s.data

/-- Decimal digits of a natural number, as rendered by Python
f-string interpolation. -/
def natData (n : Nat) : List Char := (toString n).data

/-- A string usable as a SQL identifier for tokenisation purposes:
non-empty and free of separator characters.  The spec guarantees this for
record keys and table identifiers ("keys are valid identifiers"). -/
def WordOk (s : String) : Prop :=
  s.data ≠ [] ∧ ∀ c ∈ s.data, isSepChar c = false

/-- A segment of a statement: either token material or separator material. -/
inductive Seg where
  | word (cs : List Char)
  | sep (cs : List Char)

/-- Characters of a segment list. -/
def segsJoin : List Seg → List Char
  | [] => []
  | .word cs :: L => cs ++ segsJoin L
  | .sep cs :: L => cs ++ segsJoin L

/-- Tokens of a segment list, computed structurally. -/
def segsToksGo : List Seg → List Char → List (List Char)
  | [], cur => flushAcc cur
  | .word cs :: L, cur => segsToksGo L (cs.reverse ++ cur)
  | .sep _ :: L, cur => flushAcc cur ++ segsToksGo L []

/-- Well-formed segment: word material has no separator characters, and
separator material is a non-empty run of separator characters. -/
def SegWF : Seg → Prop
  | .word cs => ∀ c ∈ cs, isSepChar c = false
  | .sep cs => cs ≠ [] ∧ ∀ c ∈ cs, isSepChar c = true

/-- Segment list of a `sep.join(items)`-shaped region, one segment list per
item, glue between consecutive items. -/
def joinItemSegs (glue : List Char) (fs : α → List Seg) : List α → List Seg
  | [] => []
  | [x] => fs x
  | x :: xs => fs x ++ .sep glue :: joinItemSegs glue fs xs

/-- A segment list that begins with separator material. -/
def headSep : List Seg → Prop
  | .sep _ :: _ => True
  | _ => False

/-- Segments of one ` AND <k> = $<i>` constraint of a select statement. -/
def andClauseSegs (p : Nat × String) : List Seg :=
  [.sep (w " "), .word (w "AND"), .sep (w " "), .word p.2.data,
   .sep (w " "), .word (w "="), .sep (w " "), .word ('$' :: natData p.1)]

/-- Segments of the statement built by `build_select_query` for a non-empty
keyword set with first key `k0` and enumerated further keys `ps`. -/
def selectSegs (name k0 : String) (ps : List (Nat × String)) : List Seg :=
  [.word (w "SELECT"), .sep (w " "), .word (w "*"), .sep (w " "),
   .word (w "FROM"), .sep (w " "), .word name.data, .sep (w " "),
   .word (w "WHERE"), .sep (w " "), .word k0.data, .sep (w " "),
   .word (w "="), .sep (w " "), .word (w "$1")]
  ++ (if ps.isEmpty then [] else joinItemSegs (w " ") andClauseSegs ps ++ [.sep (w ";")])

/-- Segments of one bare word item. -/
def wordSeg (cs : List Char) : List Seg := [.word cs]

/-- Segments of the statement built by `build_insert_query`. -/
def insertSegs (name : String) (keys phs : List String) : List Seg :=
  [.word (w "INSERT"), .sep (w " "), .word (w "INTO"), .sep (w " "),
   .word name.data, .sep (w "(")]
  ++ joinItemSegs (w ", ") (fun s => wordSeg s.data) keys
  ++ [.sep (w ") "), .word (w "VALUES"), .sep (w "(")]
  ++ joinItemSegs (w ", ") (fun s => wordSeg s.data) phs
  ++ [.sep (w ")")]

/-- Segments of one `<col> <type>` detail of a CREATE TABLE statement. -/
def detailSeg (p : String × String) : List Seg :=
  [.word p.1.data, .sep (w " "), .word p.2.data]

/-- Segments of the statement built by `create_query`, where each pair of
`details` is a column name with its mapped type tag. -/
def createSegs (name : String) (details : List (String × String)) : List Seg :=
  [.sep (w "\n                    "), .word (w "CREATE"), .sep (w " "),
   .word (w "TABLE"), .sep (w " "), .word name.data,
   .sep (w "(\n                        "), .word (w "_id"), .sep (w " "),
   .word (w "serial"), .sep (w " "), .word (w "PRIMARY"), .sep (w " "),
   .word (w "KEY"), .sep (w ",\n                        ")]
  ++ joinItemSegs (w ",\n                    ") detailSeg details
  ++ [.sep (w "\n                    );\n                    ")]

/-- Segments of one `ADD COLUMN IF NOT EXISTS <col> <type>` detail of an
ALTER TABLE statement. -/
def alterItemSegs (p : String × String) : List Seg :=
  [.word (w "ADD"), .sep (w " "), .word (w "COLUMN"), .sep (w " "),
   .word (w "IF"), .sep (w " "), .word (w "NOT"), .sep (w " "),
   .word (w "EXISTS"), .sep (w " "), .word p.1.data, .sep (w " "),
   .word p.2.data]

/-- Segments of the statement built by `alter_query`. -/
def alterSegs (name : String) (details : List (String × String)) : List Seg :=
  [.sep (w "\n                    "), .word (w "ALTER"), .sep (w " "),
   .word (w "TABLE"), .sep (w " "), .word name.data,
   .sep (w "\n                    ")]
  ++ joinItemSegs (w ",\n") alterItemSegs details
  ++ [.sep (w ";\n                    ")]

/-- Collaborator whose every read reports an undefined table. -/
def undefConn : Conn :=
  ⟨fun _ _ => .error .undefinedTable, fun _ _ => .error .undefinedTable,
   fun _ _ => .error .undefinedTable⟩

/-- Collaborator on an empty database: the catalog probe finds nothing,
reads find nothing, and every execution succeeds. -/
def okConn : Conn :=
  ⟨fun _ _ => .ok none, fun _ _ => .ok [], fun _ _ => .ok ()⟩

/-- Collaborator for which the table exists and every single-row lookup
finds one matching row. -/
def foundConn : Conn :=
  ⟨fun _ _ => .ok (some [("a", PyVal.pyInt 1)]), fun _ _ => .ok [[("a", PyVal.pyInt 1)]],
   fun _ _ => .ok ()⟩

/-!
Theorems.  Each claim of the specification is settled by exactly one
theorem below, preceded by helper lemmas where needed.  The anonymous
examples pin the embedding to the exact strings the Python builders
produce on concrete inputs (checked against the source by hand).
-/

example : build_select_query "t" [("a", .pyInt 1)]
    = .ok "SELECT * FROM t WHERE a = $1" := rfl

example : build_select_query "t" [("a", .pyInt 1), ("b", .pyInt 2)]
    = .ok "SELECT * FROM t WHERE a = $1 AND b = $2;" := rfl

example : build_select_query "t" [("a", .pyInt 1), ("b", .pyInt 2), ("c", .pyInt 3)]
    = .ok "SELECT * FROM t WHERE a = $1 AND b = $2  AND c = $3;" := rfl

example : build_select_query "t" [] = .error .indexError := rfl

example : build_insert_query "t" [("a", .pyInt 1), ("b", .pyInt 2)]
    = "INSERT INTO t(a, b) VALUES($1, $2)" := rfl

example : build_update_query "t" ["a"] [("a", .pyInt 1), ("b", .pyInt 2)]
    = ("UPDATE t SET a = $1, b = $2 WHERE a = $3;", [.pyInt 1, .pyInt 2, .pyInt 1]) := rfl

example : create_query "t" [("a", .pyInt 1)]
    = "\n                    CREATE TABLE t(\n                        _id serial PRIMARY KEY,\n                        a bigint\n                    );\n                    " := rfl

example : alter_query "t" [("a", .pyInt 1), ("b", .pyStr "x")]
    = "\n                    ALTER TABLE t\n                    ADD COLUMN IF NOT EXISTS a bigint,\nADD COLUMN IF NOT EXISTS b text;\n                    " := rfl

example : toks "SELECT * FROM t WHERE a = $1 AND b = $2  AND c = $3;"
    = [w "SELECT", w "*", w "FROM", w "t", w "WHERE", w "a", w "=", w "$1",
       w "AND", w "b", w "=", w "$2", w "AND", w "c", w "=", w "$3"] := rfl

/-- Claim C1, counterexample.  The Update builder does not number the WHERE
placeholders after the SET placeholders: for the record `a=1, b=2, c=3`
matched on `a` it emits `WHERE a = $3` (with `$3` already bound to the
value of `c`, and four parameters for three placeholders), where the claim
requires `WHERE a = $4`; and for the Match Set `[a, b]` it joins the two
WHERE conditions with a comma, not with `AND`. -/
theorem c1_update_builder_counterexample :
    build_update_query "t" ["a"] [("a", .pyInt 1), ("b", .pyInt 2), ("c", .pyInt 3)] =
      ("UPDATE t SET a = $1, b = $2, c = $3 WHERE a = $3;",
       [.pyInt 1, .pyInt 2, .pyInt 3, .pyInt 1])
    ∧ build_update_query "t" ["a", "b"] [("a", .pyInt 1), ("b", .pyInt 2), ("c", .pyInt 3)] =
      ("UPDATE t SET a = $1, b = $2, c = $3 WHERE a = $4, b = $5;",
       [.pyInt 1, .pyInt 2, .pyInt 3, .pyInt 1, .pyInt 2]) :=
  ⟨rfl, rfl⟩

/-- Claim C2, divergence.  `delete` with a non-empty filter raises
`AttributeError` before executing anything, because the source calls
`.replace` on the un-awaited coroutine returned by `_build_select_query`;
only the unfiltered path executes the unconditional DELETE. -/
theorem c2_delete_filtered_code_bug (conn : Conn) (name : String)
    (kv : String × PyVal) (rest : List (String × PyVal)) :
    Table.delete conn name (kv :: rest) =
      (.error (.attributeError "\x27coroutine\x27 object has no attribute \x27replace\x27"),
       [.acquire])
    ∧ Table.delete conn name [] =
      (execResult (conn.execute ("DELETE FROM " ++ name ++ ";") []),
       [.acquire, .execute ("DELETE FROM " ++ name ++ ";") []]) :=
  ⟨rfl, rfl⟩

/-- Claim C3.  `insert`, `update` and `upsert` on an empty record each fail
with the local `BeansError` and an empty effect trace (no connection
acquired, no statement executed, no schema-ensure), and each message
mentions the offending operation by name. -/
theorem c3_empty_record_rejection (conn : Conn) (name : String)
    (matchKeys : List String) :
    Table.insert conn name [] = (.error (.beans Table.insert_nothing_msg), [])
    ∧ Table.update conn name matchKeys [] = (.error (.beans Table.update_nothing_msg), [])
    ∧ Table.upsert conn name matchKeys [] = (.error (.beans Table.upsert_nothing_msg), [])
    ∧ (∃ pre post, Table.insert_nothing_msg = pre ++ "insert" ++ post)
    ∧ (∃ pre post, Table.update_nothing_msg = pre ++ "update" ++ post)
    ∧ (∃ pre post, Table.upsert_nothing_msg = pre ++ "upsert" ++ post) :=
  ⟨rfl, rfl, rfl,
   ⟨"Bad ", " call - you attempted to insert nothing. Don\x27t do this.", rfl⟩,
   ⟨"Bad upsert call - you attempted to ", " nothing. Don\x27t do this.", rfl⟩,
   ⟨"Bad ", " call - you attempted to upsert nothing. Don\x27t do this.", rfl⟩⟩

/-- Claim C5, divergence.  The type lookup is by exact runtime type, and no
value has the abstract class `collections.abc.Mapping` as its exact type,
so an ordered key-value mapping value such as `{"a": 1}` falls through to
the generic textual tag instead of the structured/record tag.  The mapper
is total and all other documented shapes do receive their documented
tags. -/
theorem c5_mapping_value_code_bug :
    map_type (.pyDict [("a", .pyInt 1)]) = "text"
    ∧ map_type (.pyDict [("a", .pyInt 1)]) ≠ "record"
    ∧ (∀ v : PyVal, type_of v ≠ .tMappingABC)
    ∧ (∀ s : String, map_type (.pyOther s) = "text")
    ∧ map_type (.pyStr "x") = "text" ∧ map_type (.pyBool true) = "bool"
    ∧ map_type .pyBytes = "bytea" ∧ map_type (.pyInt 7) = "bigint"
    ∧ map_type .pyFloat = "float8" ∧ map_type .pyDecimal = "numeric"
    ∧ map_type .pyList = "anyarray" ∧ map_type .pyTuple = "record"
    ∧ map_type .pyUUID = "uuid" ∧ map_type .pyDate = "date"
    ∧ map_type .pyTime = "timestamp" ∧ map_type .pyDatetime = "timestamptz"
    ∧ map_type .pyIPv4Address = "inet" ∧ map_type .pyIPv6Address = "inet"
    ∧ map_type .pyIPv4Network = "inet" ∧ map_type .pyIPv6Network = "inet"
    ∧ map_type .pyIPv4Interface = "inet" ∧ map_type .pyIPv6Interface = "inet" := by
  refine ⟨rfl, by decide, ?_, ?_, rfl, rfl, rfl, rfl, rfl, rfl, rfl, rfl, rfl, rfl,
    rfl, rfl, rfl, rfl, rfl, rfl, rfl, rfl⟩
  · intro v h
    cases v <;> simp [type_of] at h
  · intro s
    rfl

/-- Claim C4.  When the collaborator reports the undefined-table error kind
for every read, `all` returns an empty sequence, `find` returns an empty
sequence, and `find_one` returns `none`; none of them propagates the
error. -/
theorem c4_undefined_table_reads (conn : Conn) (name : String)
    (filter : List (String × PyVal))
    (hfetch : ∀ sql ps, conn.fetch sql ps = .error .undefinedTable)
    (hrow : ∀ sql ps, conn.fetchrow sql ps = .error .undefinedTable) :
    (Table.all conn name).1 = .ok []
    ∧ (Table.find conn name filter).1 = .ok []
    ∧ (Table.find_one conn name filter).1 = .ok none := by
  have hall : (Table.all conn name).1 = .ok [] := by
    simp [Table.all, hfetch]
  refine ⟨hall, ?_, ?_⟩
  · cases filter with
    | nil => simp [Table.find, Table.all, hfetch]
    | cons kv rest =>
      cases rest with
      | nil => simp [Table.find, build_select_query, hfetch]
      | cons kv2 rest2 => simp [Table.find, build_select_query, hfetch]
  · cases filter with
    | nil => simp [Table.find_one, hrow]
    | cons kv rest =>
      cases rest with
      | nil => simp [Table.find_one, build_select_query, hrow]
      | cons kv2 rest2 => simp [Table.find_one, build_select_query, hrow]

/-- Witness for claim C4 at a concrete collaborator and concrete inputs. -/
theorem c4_undefined_table_reads_witness :
    (Table.all undefConn "t").1 = .ok []
    ∧ (Table.find undefConn "t" [("a", .pyInt 1)]).1 = .ok []
    ∧ (Table.find_one undefConn "t" [("a", .pyInt 1)]).1 = .ok none :=
  c4_undefined_table_reads undefConn "t" [("a", .pyInt 1)]
    (fun _ _ => rfl) (fun _ _ => rfl)

/-- Decimal digit characters are not separator characters. -/
theorem digitChar_not_sep (m : Nat) : isSepChar (Nat.digitChar m) = false := by
  match m with
  | 0 | 1 | 2 | 3 | 4 | 5 | 6 | 7 | 8 | 9 | 10 | 11 | 12 | 13 | 14 | 15 => rfl
  | (n + 16) => rfl

/-- The digit renderer only emits non-separator characters. -/
theorem toDigitsCore_not_sep : ∀ (fuel n : Nat) (ds : List Char),
    (∀ c ∈ ds, isSepChar c = false) →
    ∀ c ∈ Nat.toDigitsCore 10 fuel n ds, isSepChar c = false := by
  intro fuel
  induction fuel with
  | zero =>
    intro n ds h
    simpa [Nat.toDigitsCore] using h
  | succ fuel ih =>
    intro n ds h c hc
    rw [Nat.toDigitsCore] at hc
    have hcons : ∀ x ∈ Nat.digitChar (n % 10) :: ds, isSepChar x = false := by
      intro x hx
      rcases List.mem_cons.mp hx with h1 | h1
      · exact h1 ▸ digitChar_not_sep (n % 10)
      · exact h x h1
    by_cases h10 : n / 10 = 0
    · rw [if_pos h10] at hc
      exact hcons c hc
    · rw [if_neg h10] at hc
      exact ih (n / 10) (Nat.digitChar (n % 10) :: ds) hcons c hc

/-- The rendered digits of a natural number contain no separators. -/
theorem natData_not_sep (n : Nat) : ∀ c ∈ natData n, isSepChar c = false :=
  toDigitsCore_not_sep (n + 1) n [] (by intro c hc; cases hc)

/-- Tokenising word material pushes it onto the accumulator. -/
theorem toksGo_word (wd : List Char) (l cur : List Char)
    (h : ∀ c ∈ wd, isSepChar c = false) :
    toksGo (wd ++ l) cur = toksGo l (wd.reverse ++ cur) := by
  induction wd generalizing cur with
  | nil => simp
  | cons c cs ih =>
    have hc : isSepChar c = false := h c (List.mem_cons_self c cs)
    have hcs : ∀ x ∈ cs, isSepChar x = false := fun x hx => h x (List.mem_cons_of_mem c hx)
    rw [List.cons_append]
    show (if isSepChar c then flushAcc cur ++ toksGo (cs ++ l) []
      else toksGo (cs ++ l) (c :: cur)) = _
    rw [hc]
    simp only [if_neg Bool.false_ne_true, ih (c :: cur) hcs, List.reverse_cons,
      List.append_assoc, List.singleton_append]

/-- Tokenising a non-empty separator run flushes the accumulator. -/
theorem toksGo_seps : ∀ (cs : List Char) (c : Char) (l cur : List Char),
    isSepChar c = true → (∀ x ∈ cs, isSepChar x = true) →
    toksGo ((c :: cs) ++ l) cur = flushAcc cur ++ toksGo l [] := by
  intro cs
  induction cs with
  | nil =>
    intro c l cur hc _
    rw [List.cons_append, List.nil_append]
    show (if isSepChar c then flushAcc cur ++ toksGo l [] else toksGo l (c :: cur)) = _
    rw [hc, if_pos rfl]
  | cons d ds ih =>
    intro c l cur hc h
    rw [List.cons_append]
    show (if isSepChar c then flushAcc cur ++ toksGo ((d :: ds) ++ l) [] else _) = _
    rw [hc, if_pos rfl, ih d l [] (h d (List.mem_cons_self d ds))
      (fun x hx => h x (List.mem_cons_of_mem d hx))]
    simp [flushAcc]

/-- Tokens of a well-formed segment list are computed structurally. -/
theorem segs_eval : ∀ (L : List Seg) (cur : List Char), (∀ s ∈ L, SegWF s) →
    toksGo (segsJoin L) cur = segsToksGo L cur := by
  intro L
  induction L with
  | nil => intro cur _; rfl
  | cons s L ih =>
    intro cur h
    have htl : ∀ s ∈ L, SegWF s := fun s hs => h s (List.mem_cons_of_mem _ hs)
    cases s with
    | word cs =>
      have hw : ∀ c ∈ cs, isSepChar c = false := h (.word cs) (List.mem_cons_self _ _)
      rw [show segsJoin (.word cs :: L) = cs ++ segsJoin L from rfl,
        toksGo_word cs _ _ hw, ih _ htl]
      rfl
    | sep cs =>
      have hs : cs ≠ [] ∧ ∀ c ∈ cs, isSepChar c = true := h (.sep cs) (List.mem_cons_self _ _)
      cases cs with
      | nil => exact absurd rfl hs.1
      | cons c cs2 =>
        rw [show segsJoin (.sep (c :: cs2) :: L) = (c :: cs2) ++ segsJoin L from rfl,
          toksGo_seps cs2 c _ _ (hs.2 c (List.mem_cons_self _ _))
            (fun x hx => hs.2 x (List.mem_cons_of_mem c hx)),
          ih [] htl]
        rfl

/-- Flushing a reversed non-empty word yields that word as one token. -/
theorem flushAcc_reverse (wd : List Char) (h : wd ≠ []) : flushAcc wd.reverse = [wd] := by
  cases wd with
  | nil => exact absurd rfl h
  | cons c cs => simp [flushAcc]

/-- A separator segment with nothing pending contributes no token. -/
theorem sep_eval (cs : List Char) (L : List Seg) :
    segsToksGo (.sep cs :: L) [] = segsToksGo L [] := rfl

/-- A non-empty word segment followed by a separator segment contributes
exactly that word as a token. -/
theorem word_sep_eval (wd : List Char) (h : wd ≠ []) (cs : List Char) (L : List Seg) :
    segsToksGo (.word wd :: .sep cs :: L) [] = wd :: segsToksGo L [] := by
  show segsToksGo (.sep cs :: L) (wd.reverse ++ []) = _
  rw [List.append_nil]
  show flushAcc wd.reverse ++ segsToksGo L [] = _
  rw [flushAcc_reverse wd h]
  rfl

/-- A trailing non-empty word segment contributes exactly that token. -/
theorem word_end_eval (wd : List Char) (h : wd ≠ []) :
    segsToksGo [.word wd] [] = [wd] := by
  show flushAcc (wd.reverse ++ []) = _
  rw [List.append_nil, flushAcc_reverse wd h]

/-- Tokens of a glue-joined item region followed by a separator segment:
each item contributes its tokens, in order. -/
theorem joinItemSegs_eval (glue : List Char) (fs : α → List Seg)
    (itemToks : α → List (List Char)) :
    ∀ (items : List α),
      (∀ x ∈ items, ∀ (t : List Char) (M : List Seg),
        segsToksGo (fs x ++ .sep t :: M) [] = itemToks x ++ segsToksGo M []) →
      ∀ (s : List Char) (L : List Seg),
        segsToksGo (joinItemSegs glue fs items ++ .sep s :: L) [] =
          items.flatMap itemToks ++ segsToksGo L [] := by
  intro items
  induction items with
  | nil =>
    intro _ s L
    rw [show joinItemSegs glue fs ([] : List α) = [] from rfl, List.nil_append, sep_eval]
    simp
  | cons x xs ih =>
    intro h s L
    cases xs with
    | nil =>
      rw [show joinItemSegs glue fs [x] = fs x from rfl, h x (List.mem_cons_self _ _) s L]
      simp
    | cons y ys =>
      rw [show joinItemSegs glue fs (x :: y :: ys)
          = fs x ++ .sep glue :: joinItemSegs glue fs (y :: ys) from rfl,
        List.append_assoc,
        show (Seg.sep glue :: joinItemSegs glue fs (y :: ys)) ++ Seg.sep s :: L
          = Seg.sep glue :: (joinItemSegs glue fs (y :: ys) ++ Seg.sep s :: L) from rfl,
        h x (List.mem_cons_self _ _) glue _,
        ih (fun z hz => h z (List.mem_cons_of_mem _ hz)) s L]
      simp

/-- Item tokens of a bare word item. -/
theorem wordSeg_eval (k : List Char) (hk : k ≠ []) (t : List Char) (M : List Seg) :
    segsToksGo (wordSeg k ++ .sep t :: M) [] = [k] ++ segsToksGo M [] := by
  rw [show wordSeg k ++ Seg.sep t :: M = .word k :: .sep t :: M from rfl,
    word_sep_eval k hk]
  rfl

/-- Item tokens of one `<col> <type>` detail. -/
theorem detailSeg_eval (p : String × String) (h1 : p.1.data ≠ []) (h2 : p.2.data ≠ [])
    (t : List Char) (M : List Seg) :
    segsToksGo (detailSeg p ++ .sep t :: M) [] = [p.1.data, p.2.data] ++ segsToksGo M [] := by
  rw [show detailSeg p ++ Seg.sep t :: M
      = .word p.1.data :: .sep (w " ") :: .word p.2.data :: .sep t :: M from rfl,
    word_sep_eval _ h1, word_sep_eval _ h2]
  rfl

/-- Item tokens of one ` AND <k> = $<i>` constraint. -/
theorem andClauseSegs_eval (p : Nat × String) (h : p.2.data ≠ [])
    (t : List Char) (M : List Seg) :
    segsToksGo (andClauseSegs p ++ .sep t :: M) [] =
      [w "AND", p.2.data, w "=", '$' :: natData p.1] ++ segsToksGo M [] := by
  rw [show andClauseSegs p ++ Seg.sep t :: M
      = .sep (w " ") :: .word (w "AND") :: .sep (w " ") :: .word p.2.data :: .sep (w " ")
        :: .word (w "=") :: .sep (w " ") :: .word ('$' :: natData p.1) :: .sep t :: M from rfl,
    sep_eval, word_sep_eval _ (by decide), word_sep_eval _ h,
    word_sep_eval _ (by decide), word_sep_eval _ (List.cons_ne_nil _ _)]
  rfl

/-- String append acts as list append on the character data. -/
theorem str_data_append (a b : String) : (a ++ b).data = a.data ++ b.data := rfl

/-- Segment-list concatenation concatenates the character material. -/
theorem segsJoin_append (A B : List Seg) : segsJoin (A ++ B) = segsJoin A ++ segsJoin B := by
  induction A with
  | nil => rfl
  | cons s A ih => cases s <;> simp [segsJoin, ih]

/-- Character-level correspondence for a glue-joined region: if each item
string corresponds to its segment list, so does the Python join. -/
theorem joinItemSegs_data (glue : String) (f : α → String) (fs : α → List Seg)
    (hf : ∀ x, (f x).data = segsJoin (fs x)) :
    ∀ items : List α,
      (pyJoin glue (items.map f)).data = segsJoin (joinItemSegs glue.data fs items) := by
  intro items
  induction items with
  | nil => rfl
  | cons x xs ih =>
    cases xs with
    | nil =>
      show (f x).data = segsJoin (joinItemSegs glue.data fs [x])
      rw [hf x]
      rfl
    | cons y ys =>
      show ((f x ++ glue) ++ pyJoin glue ((y :: ys).map f)).data = _
      rw [str_data_append, str_data_append, hf x, ih,
        show joinItemSegs glue.data fs (x :: y :: ys)
          = fs x ++ Seg.sep glue.data :: joinItemSegs glue.data fs (y :: ys) from rfl,
        segsJoin_append]
      simp [segsJoin, List.append_assoc]

/-- Evaluation step for a word followed by separator-headed material. -/
theorem word_headSep_eval (wd : List Char) (h : wd ≠ []) (R : List Seg) (hR : headSep R) :
    segsToksGo (.word wd :: R) [] = wd :: segsToksGo R [] := by
  match R, hR with
  | .sep cs :: L, _ => rw [word_sep_eval wd h cs L, sep_eval]

/-- Word material is a well-formed segment when separator-free. -/
theorem segWF_word (cs : List Char) (h : ∀ c ∈ cs, isSepChar c = false) :
    SegWF (.word cs) := h

/-- Separator material is a well-formed segment when non-empty and all
separators. -/
theorem segWF_sep (cs : List Char) (h1 : cs ≠ []) (h2 : ∀ c ∈ cs, isSepChar c = true) :
    SegWF (.sep cs) := ⟨h1, h2⟩

/-- Well-formedness of a glue-joined region. -/
theorem joinItemSegs_wf (glue : List Char) (hglue : SegWF (.sep glue)) (fs : α → List Seg) :
    ∀ (items : List α), (∀ x ∈ items, ∀ s ∈ fs x, SegWF s) →
      ∀ s ∈ joinItemSegs glue fs items, SegWF s := by
  intro items
  induction items with
  | nil => intro _ s hs; cases hs
  | cons x xs ih =>
    intro h s hs
    cases xs with
    | nil => exact h x (List.mem_cons_self _ _) s hs
    | cons y ys =>
      rw [show joinItemSegs glue fs (x :: y :: ys)
          = fs x ++ Seg.sep glue :: joinItemSegs glue fs (y :: ys) from rfl] at hs
      rcases List.mem_append.mp hs with h1 | h1
      · exact h x (List.mem_cons_self _ _) s h1
      · rcases List.mem_cons.mp h1 with h2 | h2
        · exact h2 ▸ hglue
        · exact ih (fun z hz => h z (List.mem_cons_of_mem _ hz)) s h2

/-- Character-level correspondence for one ` AND <k> = $<i>` constraint. -/
theorem and_clause_data (p : Nat × String) :
    (" AND " ++ p.2 ++ " = $" ++ toString p.1).data = segsJoin (andClauseSegs p) := by
  simp [andClauseSegs, segsJoin, w, natData, str_data_append, List.append_assoc]

/-- Well-formedness of one ` AND <k> = $<i>` constraint. -/
theorem andClauseSegs_wf (p : Nat × String) (hk : ∀ c ∈ p.2.data, isSepChar c = false) :
    ∀ s ∈ andClauseSegs p, SegWF s := by
  intro s hs
  simp only [andClauseSegs, List.mem_cons, List.not_mem_nil, or_false] at hs
  rcases hs with rfl | rfl | rfl | rfl | rfl | rfl | rfl | rfl
  · exact segWF_sep _ (by decide) (by decide)
  · exact segWF_word _ (by decide)
  · exact segWF_sep _ (by decide) (by decide)
  · exact segWF_word _ hk
  · exact segWF_sep _ (by decide) (by decide)
  · exact segWF_word _ (by decide)
  · exact segWF_sep _ (by decide) (by decide)
  · refine segWF_word _ ?_
    intro c hc
    rcases List.mem_cons.mp hc with rfl | hc
    · decide
    · exact natData_not_sep _ c hc

/-- Item tokens of one `ADD COLUMN IF NOT EXISTS <col> <type>` detail. -/
theorem alterItemSegs_eval (p : String × String) (h1 : p.1.data ≠ []) (h2 : p.2.data ≠ [])
    (t : List Char) (M : List Seg) :
    segsToksGo (alterItemSegs p ++ .sep t :: M) [] =
      [w "ADD", w "COLUMN", w "IF", w "NOT", w "EXISTS", p.1.data, p.2.data]
        ++ segsToksGo M [] := by
  rw [show alterItemSegs p ++ Seg.sep t :: M
      = .word (w "ADD") :: .sep (w " ") :: .word (w "COLUMN") :: .sep (w " ")
        :: .word (w "IF") :: .sep (w " ") :: .word (w "NOT") :: .sep (w " ")
        :: .word (w "EXISTS") :: .sep (w " ") :: .word p.1.data :: .sep (w " ")
        :: .word p.2.data :: .sep t :: M from rfl,
    word_sep_eval _ (by decide), word_sep_eval _ (by decide), word_sep_eval _ (by decide),
    word_sep_eval _ (by decide), word_sep_eval _ (by decide), word_sep_eval _ h1,
    word_sep_eval _ h2]
  rfl

/-- Character-level correspondence for a single-filter select statement. -/
theorem select_base_data (name k0 : String) :
    ("SELECT * FROM " ++ name ++ " WHERE " ++ k0 ++ " = $1").data
      = segsJoin (selectSegs name k0 []) := by
  simp [selectSegs, segsJoin, w, str_data_append, List.append_assoc]

/-- Character-level correspondence for a multi-filter select statement. -/
theorem select_full_data (name k0 : String) (p : Nat × String) (ps : List (Nat × String)) :
    ("SELECT * FROM " ++ name ++ " WHERE " ++ k0 ++ " = $1"
      ++ pyJoin " " (((p :: ps).map (fun q => " AND " ++ q.2 ++ " = $" ++ toString q.1)))
      ++ ";").data
      = segsJoin (selectSegs name k0 (p :: ps)) := by
  have hj := joinItemSegs_data " " (fun q => " AND " ++ q.2 ++ " = $" ++ toString q.1)
    andClauseSegs and_clause_data (p :: ps)
  simp only [selectSegs, List.isEmpty_cons, Bool.false_eq_true, if_false, List.cons_append,
    List.nil_append, str_data_append, hj, segsJoin_append, segsJoin, w]
  simp [segsJoin_append, segsJoin, List.append_assoc]

/-- Well-formedness of the select statement segments. -/
theorem selectSegs_wf (name k0 : String) (ps : List (Nat × String))
    (hname : ∀ c ∈ name.data, isSepChar c = false)
    (hk0 : ∀ c ∈ k0.data, isSepChar c = false)
    (hps : ∀ p ∈ ps, ∀ c ∈ (p.2 : String).data, isSepChar c = false) :
    ∀ s ∈ selectSegs name k0 ps, SegWF s := by
  intro s hs
  unfold selectSegs at hs
  rcases List.mem_append.mp hs with h1 | h1
  · simp only [List.mem_cons, List.not_mem_nil, or_false] at h1
    rcases h1 with rfl | rfl | rfl | rfl | rfl | rfl | rfl | rfl | rfl | rfl | rfl | rfl | rfl | rfl | rfl
    · exact segWF_word _ (by decide)
    · exact segWF_sep _ (by decide) (by decide)
    · exact segWF_word _ (by decide)
    · exact segWF_sep _ (by decide) (by decide)
    · exact segWF_word _ (by decide)
    · exact segWF_sep _ (by decide) (by decide)
    · exact segWF_word _ hname
    · exact segWF_sep _ (by decide) (by decide)
    · exact segWF_word _ (by decide)
    · exact segWF_sep _ (by decide) (by decide)
    · exact segWF_word _ hk0
    · exact segWF_sep _ (by decide) (by decide)
    · exact segWF_word _ (by decide)
    · exact segWF_sep _ (by decide) (by decide)
    · exact segWF_word _ (by decide)
  · cases ps with
    | nil => simp at h1
    | cons p ps' =>
      simp only [List.isEmpty_cons, Bool.false_eq_true, if_false] at h1
      rcases List.mem_append.mp h1 with h2 | h2
      · exact joinItemSegs_wf (w " ") (segWF_sep _ (by decide) (by decide)) andClauseSegs
          (p :: ps') (fun x hx => andClauseSegs_wf x (hps x hx)) s h2
      · rcases List.mem_cons.mp h2 with rfl | h3
        · exact segWF_sep _ (by decide) (by decide)
        · cases h3

/-- Token evaluation of the select statement segments. -/
theorem selectSegs_eval (name k0 : String) (ps : List (Nat × String))
    (hname : name.data ≠ []) (hk0 : k0.data ≠ [])
    (hps : ∀ p ∈ ps, (p.2 : String).data ≠ []) :
    segsToksGo (selectSegs name k0 ps) [] =
      [w "SELECT", w "*", w "FROM", name.data, w "WHERE", k0.data, w "=", w "$1"]
        ++ ps.flatMap (fun p => [w "AND", p.2.data, w "=", '$' :: natData p.1]) := by
  cases ps with
  | nil =>
    show segsToksGo ([Seg.word (w "SELECT"), .sep (w " "), .word (w "*"), .sep (w " "),
      .word (w "FROM"), .sep (w " "), .word name.data, .sep (w " "),
      .word (w "WHERE"), .sep (w " "), .word k0.data, .sep (w " "),
      .word (w "="), .sep (w " "), .word (w "$1")] ++ []) [] = _
    rw [List.append_nil, word_sep_eval _ (by decide), word_sep_eval _ (by decide),
      word_sep_eval _ (by decide), word_sep_eval _ hname, word_sep_eval _ (by decide),
      word_sep_eval _ hk0, word_sep_eval _ (by decide), word_end_eval _ (by decide)]
    simp
  | cons p ps' =>
    show segsToksGo ([Seg.word (w "SELECT"), .sep (w " "), .word (w "*"), .sep (w " "),
      .word (w "FROM"), .sep (w " "), .word name.data, .sep (w " "),
      .word (w "WHERE"), .sep (w " "), .word k0.data, .sep (w " "),
      .word (w "="), .sep (w " "), .word (w "$1")]
      ++ (joinItemSegs (w " ") andClauseSegs (p :: ps') ++ [.sep (w ";")])) [] = _
    simp only [List.cons_append, List.nil_append]
    rw [word_sep_eval _ (by decide), word_sep_eval _ (by decide),
      word_sep_eval _ (by decide), word_sep_eval _ hname, word_sep_eval _ (by decide),
      word_sep_eval _ hk0, word_sep_eval _ (by decide),
      word_headSep_eval (w "$1") (by decide) _ (by cases ps' <;> exact trivial),
      show joinItemSegs (w " ") andClauseSegs (p :: ps') ++ [Seg.sep (w ";")]
        = joinItemSegs (w " ") andClauseSegs (p :: ps') ++ Seg.sep (w ";") :: [] from rfl,
      joinItemSegs_eval (w " ") andClauseSegs _ (p :: ps')
        (fun x hx t M => andClauseSegs_eval x (hps x hx) t M) (w ";") []]
    simp [segsToksGo, flushAcc]

/-- Members of an enumeration come from the underlying list. -/
theorem pyEnumerate_mem_snd : ∀ (n : Nat) (l : List α) (p : Nat × α),
    p ∈ pyEnumerate n l → p.2 ∈ l := by
  intro n l
  induction l generalizing n with
  | nil => intro p hp; cases hp
  | cons x xs ih =>
    intro p hp
    rcases List.mem_cons.mp hp with rfl | hp
    · exact List.mem_cons_self _ _
    · exact List.mem_cons_of_mem _ (ih (n + 1) p hp)

/-- Claim C9.  For a non-empty filter the Select builder cannot fail and
produces `SELECT * FROM <id> WHERE <k1> = $1` followed by one
`AND <ki> = $i` conjunct per further filter key (placeholders numbered
from 2 in key order); `find` executes it with the filter values in key
order.  With an empty filter, `find` and `find_one` bypass the builder and
issue the unconditional statements, so the builder is only invoked with at
least one key. -/
theorem c9_select_builder_and_bypass (conn : Conn) (name k0 : String) (v0 : PyVal)
    (rest : List (String × PyVal))
    (hname : WordOk name) (hk0 : WordOk k0) (hrest : ∀ kv ∈ rest, WordOk kv.1) :
    (∃ q, build_select_query name ((k0, v0) :: rest) = .ok q
       ∧ toks q = [w "SELECT", w "*", w "FROM", name.data, w "WHERE", k0.data, w "=", w "$1"]
           ++ (pyEnumerate 2 (rest.map Prod.fst)).flatMap
             (fun p => [w "AND", p.2.data, w "=", '$' :: natData p.1])
       ∧ (Table.find conn name ((k0, v0) :: rest)).2
           = [.acquire, .fetch q (((k0, v0) :: rest).map Prod.snd)])
    ∧ (Table.find conn name []).2
        = [.acquire, .acquire, .fetch ("SELECT * FROM " ++ name ++ ";") []]
    ∧ (Table.find_one conn name []).2
        = [.acquire, .fetchrow ("SELECT * FROM " ++ name ++ " LIMIT 1;") []] := by
  refine ⟨?_, rfl, rfl⟩
  cases rest with
  | nil =>
    refine ⟨_, rfl, ?_, rfl⟩
    show toksGo ("SELECT * FROM " ++ name ++ " WHERE " ++ k0 ++ " = $1").data [] = _
    rw [select_base_data, segs_eval _ _
        (selectSegs_wf name k0 [] hname.2 hk0.2 (by intro p hp; cases hp)),
      selectSegs_eval name k0 [] hname.1 hk0.1 (by intro p hp; cases hp)]
    simp [pyEnumerate]
  | cons kv rest' =>
    refine ⟨_, rfl, ?_, rfl⟩
    have hps : ∀ p ∈ (2, kv.1) :: pyEnumerate 3 (rest'.map Prod.fst), WordOk p.2 := by
      intro p hp
      rcases List.mem_cons.mp hp with rfl | hp
      · exact hrest kv (List.mem_cons_self _ _)
      · have h2 := pyEnumerate_mem_snd 3 (rest'.map Prod.fst) p hp
        rcases List.mem_map.mp h2 with ⟨kv2, hkv2, hp2⟩
        exact hp2 ▸ hrest kv2 (List.mem_cons_of_mem _ hkv2)
    show toksGo ("SELECT * FROM " ++ name ++ " WHERE " ++ k0 ++ " = $1"
      ++ pyJoin " " (((2, kv.1) :: pyEnumerate 3 (rest'.map Prod.fst)).map
          (fun q => " AND " ++ q.2 ++ " = $" ++ toString q.1)) ++ ";").data [] = _
    rw [select_full_data, segs_eval _ _
        (selectSegs_wf name k0 _ hname.2 hk0.2 (fun p hp => (hps p hp).2)),
      selectSegs_eval name k0 _ hname.1 hk0.1 (fun p hp => (hps p hp).1)]
    rfl

/-- Character-level correspondence for the insert statement. -/
theorem insert_query_data (name : String) (kwargs : List (String × PyVal)) :
    (build_insert_query name kwargs).data
      = segsJoin (insertSegs name (kwargs.map Prod.fst)
          ((List.range kwargs.length).map (fun i => "$" ++ toString (i + 1)))) := by
  have hid : ∀ s : String, s.data = segsJoin (wordSeg s.data) := by
    intro s; simp [wordSeg, segsJoin]
  have hk := joinItemSegs_data ", " (fun s : String => s) (fun s => wordSeg s.data)
    hid (kwargs.map Prod.fst)
  have hp := joinItemSegs_data ", " (fun s : String => s) (fun s => wordSeg s.data)
    hid ((List.range kwargs.length).map (fun i => "$" ++ toString (i + 1)))
  simp only [List.map_id'] at hk hp
  simp [build_insert_query, insertSegs, segsJoin_append, segsJoin, w, str_data_append,
    List.append_assoc, hk, hp]

/-- Well-formedness of the insert statement segments. -/
theorem insertSegs_wf (name : String) (keys phs : List String)
    (hn : ∀ c ∈ name.data, isSepChar c = false)
    (hkeys : ∀ k ∈ keys, ∀ c ∈ (k : String).data, isSepChar c = false)
    (hphs : ∀ p ∈ phs, ∀ c ∈ (p : String).data, isSepChar c = false) :
    ∀ s ∈ insertSegs name keys phs, SegWF s := by
  intro s hs
  unfold insertSegs at hs
  simp only [List.append_assoc, List.cons_append, List.nil_append, List.mem_cons,
    List.mem_append] at hs
  rcases hs with rfl | rfl | rfl | rfl | rfl | rfl | hs
  · exact segWF_word _ (by decide)
  · exact segWF_sep _ (by decide) (by decide)
  · exact segWF_word _ (by decide)
  · exact segWF_sep _ (by decide) (by decide)
  · exact segWF_word _ hn
  · exact segWF_sep _ (by decide) (by decide)
  rcases hs with hs | rfl | rfl | rfl | hs
  · exact joinItemSegs_wf (w ", ") (segWF_sep _ (by decide) (by decide)) _ keys
      (fun x hx s hs2 => by
        rcases List.mem_singleton.mp hs2 with rfl
        exact segWF_word _ (hkeys x hx)) s hs
  · exact segWF_sep _ (by decide) (by decide)
  · exact segWF_word _ (by decide)
  · exact segWF_sep _ (by decide) (by decide)
  rcases hs with hs | rfl | h
  · exact joinItemSegs_wf (w ", ") (segWF_sep _ (by decide) (by decide)) _ phs
      (fun x hx s hs2 => by
        rcases List.mem_singleton.mp hs2 with rfl
        exact segWF_word _ (hphs x hx)) s hs
  · exact segWF_sep _ (by decide) (by decide)
  · cases h

/-- Flat-mapping singletons is mapping. -/
theorem flatMap_single (f : α → β) : ∀ l : List α, (l.flatMap fun x => [f x]) = l.map f := by
  intro l
  induction l with
  | nil => rfl
  | cons x xs ih => simp [ih]

/-- Token evaluation of the insert statement segments. -/
theorem insertSegs_eval (name : String) (keys phs : List String)
    (hn : name.data ≠ []) (hkeys : ∀ k ∈ keys, (k : String).data ≠ [])
    (hphs : ∀ p ∈ phs, (p : String).data ≠ []) :
    segsToksGo (insertSegs name keys phs) [] =
      [w "INSERT", w "INTO", name.data] ++ keys.map String.data ++ [w "VALUES"]
        ++ phs.map String.data := by
  unfold insertSegs
  simp only [List.append_assoc, List.cons_append, List.nil_append]
  rw [word_sep_eval _ (by decide), word_sep_eval _ (by decide), word_sep_eval _ hn,
    joinItemSegs_eval (w ", ") (fun s => wordSeg s.data) (fun s => [s.data]) keys
      (fun x hx t M => wordSeg_eval x.data (hkeys x hx) t M) (w ") ") _,
    word_sep_eval _ (by decide),
    joinItemSegs_eval (w ", ") (fun s => wordSeg s.data) (fun s => [s.data]) phs
      (fun x hx t M => wordSeg_eval x.data (hphs x hx) t M) (w ")") []]
  simp [segsToksGo, flushAcc, flatMap_single]

/-- Flat-mapping after mapping fuses. -/
theorem flatMap_map (g : α → β) (f : β → List γ) :
    ∀ l : List α, (l.map g).flatMap f = l.flatMap (fun x => f (g x)) := by
  intro l
  induction l with
  | nil => rfl
  | cons x xs ih => simp [ih]

/-- Every type tag produced by the mapper is a usable SQL word. -/
theorem valid_tag_wordOk (t : PyType) : WordOk (VALID_TYPE_MAPPING t) := by
  cases t
  case tOther s => exact (show WordOk "text" from ⟨by decide, by decide⟩)
  all_goals exact ⟨by decide, by decide⟩

/-- Character-level correspondence for one `<col> <type>` detail. -/
theorem detail_data (p : String × String) :
    (p.1 ++ " " ++ p.2).data = segsJoin (detailSeg p) := by
  simp [detailSeg, segsJoin, w, str_data_append, List.append_assoc]

/-- Well-formedness of one `<col> <type>` detail. -/
theorem detailSeg_wf (p : String × String) (h1 : ∀ c ∈ p.1.data, isSepChar c = false)
    (h2 : ∀ c ∈ p.2.data, isSepChar c = false) : ∀ s ∈ detailSeg p, SegWF s := by
  intro s hs
  simp only [detailSeg, List.mem_cons, List.not_mem_nil, or_false] at hs
  rcases hs with rfl | rfl | rfl
  · exact segWF_word _ h1
  · exact segWF_sep _ (by decide) (by decide)
  · exact segWF_word _ h2

/-- Character-level correspondence for the CREATE TABLE statement. -/
theorem create_query_data (name : String) (record : List (String × PyVal)) :
    (create_query name record).data
      = segsJoin (createSegs name (record.map
          (fun kv => (kv.1, VALID_TYPE_MAPPING (type_of kv.2))))) := by
  have hj := joinItemSegs_data ",\n                    "
    (fun p : String × String => p.1 ++ " " ++ p.2) detailSeg detail_data
    (record.map (fun kv => (kv.1, VALID_TYPE_MAPPING (type_of kv.2))))
  simp only [List.map_map, Function.comp_def] at hj
  simp [create_query, createSegs, segsJoin_append, segsJoin, w, str_data_append,
    List.append_assoc, hj]

/-- Well-formedness of the CREATE TABLE statement segments. -/
theorem createSegs_wf (name : String) (details : List (String × String))
    (hn : ∀ c ∈ name.data, isSepChar c = false)
    (hd : ∀ p ∈ details, (∀ c ∈ (p.1 : String).data, isSepChar c = false)
          ∧ (∀ c ∈ (p.2 : String).data, isSepChar c = false)) :
    ∀ s ∈ createSegs name details, SegWF s := by
  intro s hs
  unfold createSegs at hs
  simp only [List.append_assoc, List.cons_append, List.nil_append, List.mem_cons,
    List.mem_append] at hs
  rcases hs with rfl | rfl | rfl | rfl | rfl | rfl | rfl | rfl | rfl | rfl | rfl | rfl | rfl
    | rfl | rfl | hs
  · exact segWF_sep _ (by decide) (by decide)
  · exact segWF_word _ (by decide)
  · exact segWF_sep _ (by decide) (by decide)
  · exact segWF_word _ (by decide)
  · exact segWF_sep _ (by decide) (by decide)
  · exact segWF_word _ hn
  · exact segWF_sep _ (by decide) (by decide)
  · exact segWF_word _ (by decide)
  · exact segWF_sep _ (by decide) (by decide)
  · exact segWF_word _ (by decide)
  · exact segWF_sep _ (by decide) (by decide)
  · exact segWF_word _ (by decide)
  · exact segWF_sep _ (by decide) (by decide)
  · exact segWF_word _ (by decide)
  · exact segWF_sep _ (by decide) (by decide)
  rcases hs with hs | rfl | h
  · exact joinItemSegs_wf _ (segWF_sep _ (by decide) (by decide)) detailSeg details
      (fun x hx => detailSeg_wf x (hd x hx).1 (hd x hx).2) s hs
  · exact segWF_sep _ (by decide) (by decide)
  · cases h

/-- Token evaluation of the CREATE TABLE statement segments. -/
theorem createSegs_eval (name : String) (details : List (String × String))
    (hn : name.data ≠ [])
    (hd : ∀ p ∈ details, (p.1 : String).data ≠ [] ∧ (p.2 : String).data ≠ []) :
    segsToksGo (createSegs name details) [] =
      [w "CREATE", w "TABLE", name.data, w "_id", w "serial", w "PRIMARY", w "KEY"]
        ++ details.flatMap (fun p => [p.1.data, p.2.data]) := by
  unfold createSegs
  simp only [List.append_assoc, List.cons_append, List.nil_append]
  rw [sep_eval, word_sep_eval _ (by decide), word_sep_eval _ (by decide),
    word_sep_eval _ hn, word_sep_eval _ (by decide), word_sep_eval _ (by decide),
    word_sep_eval _ (by decide), word_sep_eval _ (by decide),
    joinItemSegs_eval (w ",\n                    ") detailSeg (fun p => [p.1.data, p.2.data])
      details (fun x hx t M => detailSeg_eval x (hd x hx).1 (hd x hx).2 t M)
      (w "\n                    );\n                    ") []]
  simp [segsToksGo, flushAcc]

/-- Character-level correspondence for one ALTER TABLE detail. -/
theorem alter_item_data (p : String × String) :
    ("ADD COLUMN IF NOT EXISTS " ++ p.1 ++ " " ++ p.2).data = segsJoin (alterItemSegs p) := by
  simp [alterItemSegs, segsJoin, w, str_data_append, List.append_assoc]

/-- Well-formedness of one ALTER TABLE detail. -/
theorem alterItemSegs_wf (p : String × String)
    (h1 : ∀ c ∈ p.1.data, isSepChar c = false)
    (h2 : ∀ c ∈ p.2.data, isSepChar c = false) : ∀ s ∈ alterItemSegs p, SegWF s := by
  intro s hs
  simp only [alterItemSegs, List.mem_cons, List.not_mem_nil, or_false] at hs
  rcases hs with rfl | rfl | rfl | rfl | rfl | rfl | rfl | rfl | rfl | rfl | rfl | rfl | rfl
  · exact segWF_word _ (by decide)
  · exact segWF_sep _ (by decide) (by decide)
  · exact segWF_word _ (by decide)
  · exact segWF_sep _ (by decide) (by decide)
  · exact segWF_word _ (by decide)
  · exact segWF_sep _ (by decide) (by decide)
  · exact segWF_word _ (by decide)
  · exact segWF_sep _ (by decide) (by decide)
  · exact segWF_word _ (by decide)
  · exact segWF_sep _ (by decide) (by decide)
  · exact segWF_word _ h1
  · exact segWF_sep _ (by decide) (by decide)
  · exact segWF_word _ h2

/-- Character-level correspondence for the ALTER TABLE statement. -/
theorem alter_query_data (name : String) (record : List (String × PyVal)) :
    (alter_query name record).data
      = segsJoin (alterSegs name (record.map
          (fun kv => (kv.1, VALID_TYPE_MAPPING (type_of kv.2))))) := by
  have hj := joinItemSegs_data ",\n"
    (fun p : String × String => "ADD COLUMN IF NOT EXISTS " ++ p.1 ++ " " ++ p.2)
    alterItemSegs alter_item_data
    (record.map (fun kv => (kv.1, VALID_TYPE_MAPPING (type_of kv.2))))
  simp only [List.map_map, Function.comp_def] at hj
  simp [alter_query, alterSegs, segsJoin_append, segsJoin, w, str_data_append,
    List.append_assoc, hj]

/-- Well-formedness of the ALTER TABLE statement segments. -/
theorem alterSegs_wf (name : String) (details : List (String × String))
    (hn : ∀ c ∈ name.data, isSepChar c = false)
    (hd : ∀ p ∈ details, (∀ c ∈ (p.1 : String).data, isSepChar c = false)
          ∧ (∀ c ∈ (p.2 : String).data, isSepChar c = false)) :
    ∀ s ∈ alterSegs name details, SegWF s := by
  intro s hs
  unfold alterSegs at hs
  simp only [List.append_assoc, List.cons_append, List.nil_append, List.mem_cons,
    List.mem_append] at hs
  rcases hs with rfl | rfl | rfl | rfl | rfl | rfl | rfl | hs
  · exact segWF_sep _ (by decide) (by decide)
  · exact segWF_word _ (by decide)
  · exact segWF_sep _ (by decide) (by decide)
  · exact segWF_word _ (by decide)
  · exact segWF_sep _ (by decide) (by decide)
  · exact segWF_word _ hn
  · exact segWF_sep _ (by decide) (by decide)
  rcases hs with hs | rfl | h
  · exact joinItemSegs_wf _ (segWF_sep _ (by decide) (by decide)) alterItemSegs details
      (fun x hx => alterItemSegs_wf x (hd x hx).1 (hd x hx).2) s hs
  · exact segWF_sep _ (by decide) (by decide)
  · cases h

/-- Token evaluation of the ALTER TABLE statement segments. -/
theorem alterSegs_eval (name : String) (details : List (String × String))
    (hn : name.data ≠ [])
    (hd : ∀ p ∈ details, (p.1 : String).data ≠ [] ∧ (p.2 : String).data ≠ []) :
    segsToksGo (alterSegs name details) [] =
      [w "ALTER", w "TABLE", name.data]
        ++ details.flatMap (fun p => [w "ADD", w "COLUMN", w "IF", w "NOT", w "EXISTS",
            p.1.data, p.2.data]) := by
  unfold alterSegs
  simp only [List.append_assoc, List.cons_append, List.nil_append]
  rw [sep_eval, word_sep_eval _ (by decide), word_sep_eval _ (by decide),
    word_sep_eval _ hn,
    joinItemSegs_eval (w ",\n") alterItemSegs
      (fun p => [w "ADD", w "COLUMN", w "IF", w "NOT", w "EXISTS", p.1.data, p.2.data])
      details (fun x hx t M => alterItemSegs_eval x (hd x hx).1 (hd x hx).2 t M)
      (w ";\n                    ") []]
  simp [segsToksGo, flushAcc]

/-- Membership gives a positive containment check for string lists. -/
theorem contains_of_mem (l : List String) (k : String) (h : k ∈ l) :
    l.contains k = true := by
  simpa using h

/-- Adding columns that are all already present changes nothing. -/
theorem alterCols_subset : ∀ (ks : List String) (cols : List String),
    (∀ k ∈ ks, cols.contains k = true) → alterCols cols ks = cols := by
  intro ks
  induction ks with
  | nil => intro cols _; rfl
  | cons k ks ih =>
    intro cols h
    show List.foldl addColIfNotExists (addColIfNotExists cols k) ks = cols
    rw [show addColIfNotExists cols k = cols from by
      unfold addColIfNotExists
      rw [h k (List.mem_cons_self _ _), if_pos rfl]]
    exact ih cols (fun x hx => h x (List.mem_cons_of_mem _ hx))

/-- Every requested column and every existing column is present after an
ALTER-apply. -/
theorem mem_alterCols : ∀ (ks : List String) (cols : List String) (k : String),
    k ∈ ks ∨ k ∈ cols → k ∈ alterCols cols ks := by
  intro ks
  induction ks with
  | nil =>
    intro cols k h
    rcases h with h | h
    · cases h
    · exact h
  | cons x xs ih =>
    intro cols k h
    show k ∈ List.foldl addColIfNotExists (addColIfNotExists cols x) xs
    have hstep : ∀ j, j ∈ cols ∨ j = x → j ∈ addColIfNotExists cols x := by
      intro j hj
      unfold addColIfNotExists
      by_cases hc : cols.contains x = true
      · rw [if_pos hc]
        rcases hj with hj | rfl
        · exact hj
        · simpa using hc
      · rw [if_neg hc]
        rcases hj with hj | rfl
        · exact List.mem_append_left _ hj
        · exact List.mem_append_right _ (List.mem_singleton_self _)
    rcases h with h | h
    · rcases List.mem_cons.mp h with rfl | h2
      · exact ih (addColIfNotExists cols k) k (Or.inr (hstep k (Or.inr rfl)))
      · exact ih _ k (Or.inl h2)
    · exact ih _ k (Or.inr (hstep k (Or.inl h)))

/-- Setting a present table replaces its columns in the catalog. -/
theorem tableCols_setTable : ∀ (db : Db) (name : String) (cols c : List String),
    tableCols name db = some cols → tableCols name (setTable name c db) = some c := by
  intro db
  induction db with
  | nil => intro name cols c h; cases h
  | cons e db ih =>
    intro name cols c h
    by_cases he : e.1 = name
    · simp [setTable, tableCols, he]
    · rw [show setTable name c (e :: db) = e :: setTable name c db from by
        simp [setTable, he]]
      rw [show tableCols name (e :: setTable name c db)
          = tableCols name (setTable name c db) from by simp [tableCols, he]]
      rw [show tableCols name (e :: db) = tableCols name db from by
        simp [tableCols, he]] at h
      exact ih name cols c h

/-- Setting the same columns twice is the same as setting them once. -/
theorem setTable_setTable : ∀ (db : Db) (name : String) (c : List String),
    setTable name c (setTable name c db) = setTable name c db := by
  intro db
  induction db with
  | nil => intro name c; rfl
  | cons e db ih =>
    intro name c
    by_cases he : e.1 = name
    · simp [setTable, he]
    · simp [setTable, he, ih]

/-- Running the schema reconciler twice with the same record leaves the
catalog of the second run unchanged; the second run executes the ALTER
statement. -/
theorem ensure_step_idem (db : Db) (name : String) (record : List (String × PyVal)) :
    ensure_step (ensure_step db name record).1 name record
      = ((ensure_step db name record).1, alter_query name record) := by
  cases hdb : tableCols name db with
  | none =>
    have h1 : (ensure_step db name record).1
        = (name, "_id" :: record.map Prod.fst) :: db := by
      simp [ensure_step, hdb]
    have h2 : tableCols name ((name, "_id" :: record.map Prod.fst) :: db)
        = some ("_id" :: record.map Prod.fst) := by
      simp [tableCols]
    have h3 : alterCols ("_id" :: record.map Prod.fst) (record.map Prod.fst)
        = "_id" :: record.map Prod.fst :=
      alterCols_subset _ _ (fun k hk => contains_of_mem _ _ (List.mem_cons_of_mem _ hk))
    rw [h1]
    show ensure_step ((name, "_id" :: record.map Prod.fst) :: db) name record = _
    rw [show ensure_step ((name, "_id" :: record.map Prod.fst) :: db) name record
        = (setTable name (alterCols ("_id" :: record.map Prod.fst) (record.map Prod.fst))
            ((name, "_id" :: record.map Prod.fst) :: db), alter_query name record) from by
      simp [ensure_step, h2], h3]
    rw [show setTable name ("_id" :: record.map Prod.fst)
        ((name, "_id" :: record.map Prod.fst) :: db)
        = (name, "_id" :: record.map Prod.fst) :: db from by simp [setTable]]
  | some cols =>
    have h1 : (ensure_step db name record).1
        = setTable name (alterCols cols (record.map Prod.fst)) db := by
      simp [ensure_step, hdb]
    have h2 : tableCols name (setTable name (alterCols cols (record.map Prod.fst)) db)
        = some (alterCols cols (record.map Prod.fst)) :=
      tableCols_setTable db name cols _ hdb
    have h3 : alterCols (alterCols cols (record.map Prod.fst)) (record.map Prod.fst)
        = alterCols cols (record.map Prod.fst) :=
      alterCols_subset _ _ (fun k hk =>
        contains_of_mem _ _ (mem_alterCols _ _ _ (Or.inl hk)))
    rw [h1]
    rw [show ensure_step (setTable name (alterCols cols (record.map Prod.fst)) db) name record
        = (setTable name (alterCols (alterCols cols (record.map Prod.fst)) (record.map Prod.fst))
            (setTable name (alterCols cols (record.map Prod.fst)) db),
           alter_query name record) from by simp [ensure_step, h2], h3,
      setTable_setTable]

/-- Claim C6.  The schema reconciler first probes the catalog; on an absent
table it executes a CREATE TABLE with the auto-increment primary key column
`_id serial PRIMARY KEY` plus one column per record key typed by the Type
Mapper; on a present table it executes one ALTER TABLE statement made of
`ADD COLUMN IF NOT EXISTS` sub-commands per key.  It is invoked before the
main statement of `insert`, `update` and `upsert`, and running it twice
with the same record shape changes nothing the second time and yields no
duplicate columns. -/
theorem c6_ensure_schema (conn : Conn) (name : String) (record : List (String × PyVal))
    (db : Db) (hname : WordOk name) (hkeys : ∀ kv ∈ record, WordOk kv.1)
    (hnd : (record.map Prod.fst).Nodup) (hid : "_id" ∉ record.map Prod.fst) :
    (conn.fetchrow pg_tables_query [.pyStr name] = .ok none →
      (Table.ensure_beans conn name record).2
        = [.acquire, .fetchrow pg_tables_query [.pyStr name],
           .execute (create_query name record) []])
    ∧ (∀ r : Row, r ≠ [] → conn.fetchrow pg_tables_query [.pyStr name] = .ok (some r) →
      (Table.ensure_beans conn name record).2
        = [.acquire, .fetchrow pg_tables_query [.pyStr name],
           .execute (alter_query name record) []])
    ∧ toks (create_query name record)
        = [w "CREATE", w "TABLE", name.data, w "_id", w "serial", w "PRIMARY", w "KEY"]
          ++ record.flatMap (fun kv => [kv.1.data, (VALID_TYPE_MAPPING (type_of kv.2)).data])
    ∧ toks (alter_query name record)
        = [w "ALTER", w "TABLE", name.data]
          ++ record.flatMap (fun kv => [w "ADD", w "COLUMN", w "IF", w "NOT", w "EXISTS",
              kv.1.data, (VALID_TYPE_MAPPING (type_of kv.2)).data])
    ∧ (∀ kv kvs, ∃ t, (Table.insert conn name (kv :: kvs)).2
        = (Table.ensure_beans conn name (kv :: kvs)).2 ++ t)
    ∧ (∀ mk kv kvs, ∃ t, (Table.update conn name mk (kv :: kvs)).2
        = (Table.ensure_beans conn name (kv :: kvs)).2 ++ t)
    ∧ (∀ mk kv kvs, ∃ t, (Table.upsert conn name mk (kv :: kvs)).2
        = (Table.ensure_beans conn name (kv :: kvs)).2 ++ t)
    ∧ ensure_step (ensure_step db name record).1 name record
        = ((ensure_step db name record).1, alter_query name record)
    ∧ (tableCols name db = none →
        tableCols name (ensure_step (ensure_step db name record).1 name record).1
          = some ("_id" :: record.map Prod.fst)
        ∧ ("_id" :: record.map Prod.fst).Nodup) := by
  have hdet : ∀ p ∈ record.map (fun kv => (kv.1, VALID_TYPE_MAPPING (type_of kv.2))),
      WordOk p.1 ∧ WordOk p.2 := by
    intro p hp
    rcases List.mem_map.mp hp with ⟨kv, hkv, rfl⟩
    exact ⟨hkeys kv hkv, valid_tag_wordOk _⟩
  refine ⟨?_, ?_, ?_, ?_, ?_, ?_, ?_, ensure_step_idem db name record, ?_⟩
  · intro h
    simp [Table.ensure_beans, h, rowTruthy]
  · intro r hr h
    cases r with
    | nil => exact absurd rfl hr
    | cons a r' => simp [Table.ensure_beans, h, rowTruthy]
  · show toksGo (create_query name record).data [] = _
    rw [create_query_data, segs_eval _ _
        (createSegs_wf name _ hname.2 (fun p hp => ⟨(hdet p hp).1.2, (hdet p hp).2.2⟩)),
      createSegs_eval name _ hname.1 (fun p hp => ⟨(hdet p hp).1.1, (hdet p hp).2.1⟩),
      flatMap_map]
  · show toksGo (alter_query name record).data [] = _
    rw [alter_query_data, segs_eval _ _
        (alterSegs_wf name _ hname.2 (fun p hp => ⟨(hdet p hp).1.2, (hdet p hp).2.2⟩)),
      alterSegs_eval name _ hname.1 (fun p hp => ⟨(hdet p hp).1.1, (hdet p hp).2.1⟩),
      flatMap_map]
  · intro kv kvs
    cases hE : (Table.ensure_beans conn name (kv :: kvs)).1 with
    | error e => exact ⟨[], by simp [Table.insert, hE]⟩
    | ok u =>
      exact ⟨[.acquire, .execute (build_insert_query name (kv :: kvs))
        ((kv :: kvs).map Prod.snd)], by simp [Table.insert, hE]⟩
  · intro mk kv kvs
    cases hE : (Table.ensure_beans conn name (kv :: kvs)).1 with
    | error e => exact ⟨[], by simp [Table.update, hE]⟩
    | ok u =>
      exact ⟨[.acquire, .execute (build_update_query name mk (kv :: kvs)).1
        (build_update_query name mk (kv :: kvs)).2], by simp [Table.update, hE]⟩
  · intro mk kv kvs
    cases hE : (Table.ensure_beans conn name (kv :: kvs)).1 with
    | error e => exact ⟨[], by simp [Table.upsert, hE]⟩
    | ok u =>
      cases hF : (Table.find_one conn name
          ((kv :: kvs).filter (fun p => mk.contains p.1))).1 with
      | error e =>
        refine ⟨(Table.find_one conn name
          ((kv :: kvs).filter (fun p => mk.contains p.1))).2, ?_⟩
        simp only [Table.upsert, List.isEmpty_cons, Bool.false_eq_true, if_false, hE, hF]
      | ok found =>
        cases hT : rowTruthy found with
        | false =>
          refine ⟨(Table.find_one conn name
            ((kv :: kvs).filter (fun p => mk.contains p.1))).2
            ++ (Table.insert conn name (kv :: kvs)).2, ?_⟩
          simp only [Table.upsert, List.isEmpty_cons, Bool.false_eq_true, if_false, hE, hF,
            hT, List.append_assoc, eq_self_iff_true, if_true]
        | true =>
          refine ⟨(Table.find_one conn name
            ((kv :: kvs).filter (fun p => mk.contains p.1))).2
            ++ (Table.update conn name (mk ++ ["_id"]) (kv :: kvs)).2, ?_⟩
          simp only [Table.upsert, List.isEmpty_cons, Bool.false_eq_true, if_false, hE, hF,
            hT, List.append_assoc, eq_self_iff_true, if_true]
  · intro h
    have h1 : (ensure_step db name record).1
        = (name, "_id" :: record.map Prod.fst) :: db := by
      simp [ensure_step, h]
    refine ⟨?_, ?_⟩
    · rw [show (ensure_step (ensure_step db name record).1 name record).1
          = (ensure_step db name record).1 from by rw [ensure_step_idem db name record],
        h1]
      simp [tableCols]
    · exact List.nodup_cons.mpr ⟨hid, hnd⟩

/-- Filtering a record by match keys, then projecting the keys, is the same
as filtering the record keys by match membership. -/
theorem filter_fst_comm (p : String → Bool) : ∀ l : List (String × PyVal),
    (l.filter (fun kvp => p kvp.1)).map Prod.fst = (l.map Prod.fst).filter p := by
  intro l
  induction l with
  | nil => rfl
  | cons x xs ih => by_cases hp : p x.1 <;> simp [hp, ih]

/-- Claim C8.  On a non-empty record, `upsert` ensures the schema, then
looks up an existing row via `find_one` using exactly the match keys that
are also record keys, and delegates to `update` with the Match Set extended
by the internal identity column `_id` when a row was found, or to `insert`
with the full record when none was. -/
theorem c8_upsert_flow (conn : Conn) (name : String) (matchKeys : List String)
    (kv : String × PyVal) (kvs : List (String × PyVal)) :
    (((kv :: kvs).filter (fun p => matchKeys.contains p.1)).map Prod.fst
        = ((kv :: kvs).map Prod.fst).filter (fun k => matchKeys.contains k))
    ∧ ((Table.ensure_beans conn name (kv :: kvs)).1 = .ok () →
        (∀ r : Row, r ≠ [] →
          (Table.find_one conn name
              ((kv :: kvs).filter (fun p => matchKeys.contains p.1))).1 = .ok (some r) →
          Table.upsert conn name matchKeys (kv :: kvs)
            = ((Table.update conn name (matchKeys ++ ["_id"]) (kv :: kvs)).1,
               (Table.ensure_beans conn name (kv :: kvs)).2
                 ++ ((Table.find_one conn name
                      ((kv :: kvs).filter (fun p => matchKeys.contains p.1))).2
                 ++ (Table.update conn name (matchKeys ++ ["_id"]) (kv :: kvs)).2)))
        ∧ ((Table.find_one conn name
              ((kv :: kvs).filter (fun p => matchKeys.contains p.1))).1 = .ok none →
          Table.upsert conn name matchKeys (kv :: kvs)
            = ((Table.insert conn name (kv :: kvs)).1,
               (Table.ensure_beans conn name (kv :: kvs)).2
                 ++ ((Table.find_one conn name
                      ((kv :: kvs).filter (fun p => matchKeys.contains p.1))).2
                 ++ (Table.insert conn name (kv :: kvs)).2)))) := by
  refine ⟨filter_fst_comm _ (kv :: kvs), fun hE => ⟨?_, ?_⟩⟩
  · intro r hr hF
    have hT : rowTruthy (some r) = true := by
      cases r with
      | nil => exact absurd rfl hr
      | cons a r' => rfl
    simp only [Table.upsert, List.isEmpty_cons, Bool.false_eq_true, if_false, hE, hF, hT,
      eq_self_iff_true, if_true, List.append_assoc]
  · intro hF
    simp only [Table.upsert, List.isEmpty_cons, Bool.false_eq_true, if_false, hE, hF,
      rowTruthy, Bool.false_eq_true, if_false, List.append_assoc]

/-- Witness for claim C8: with a collaborator that finds a row, `upsert`
takes the update path. -/
theorem c8_upsert_flow_witness :
    Table.upsert foundConn "t" ["a"] [("a", PyVal.pyInt 1)]
      = ((Table.update foundConn "t" (["a"] ++ ["_id"]) [("a", PyVal.pyInt 1)]).1,
         (Table.ensure_beans foundConn "t" [("a", PyVal.pyInt 1)]).2
           ++ ((Table.find_one foundConn "t"
                ([("a", PyVal.pyInt 1)].filter (fun p => (["a"] : List String).contains p.1))).2
           ++ (Table.update foundConn "t" (["a"] ++ ["_id"]) [("a", PyVal.pyInt 1)]).2)) :=
  (((c8_upsert_flow foundConn "t" ["a"] ("a", .pyInt 1) []).2 rfl).1
    [("a", PyVal.pyInt 1)] (List.cons_ne_nil _ _) rfl)

/-- Looking up a key appended at the end of the cache. -/
theorem lookupHandle_append : ∀ (tables : List (String × Nat)) (k2 key : String) (v : Nat),
    lookupHandle k2 (tables ++ [(key, v)])
      = (match lookupHandle k2 tables with
         | some h => some h
         | none => if key = k2 then some v else none) := by
  intro tables
  induction tables with
  | nil => intro k2 key v; simp [lookupHandle]
  | cons e rest ih =>
    intro k2 key v
    obtain ⟨k, hv⟩ := e
    by_cases hk : k = k2
    · simp [lookupHandle, hk]
    · simp [lookupHandle, hk, ih]

/-- A successful cache lookup is a cache membership. -/
theorem lookupHandle_some_mem : ∀ (tables : List (String × Nat)) (key : String) (h : Nat),
    lookupHandle key tables = some h → (key, h) ∈ tables := by
  intro tables
  induction tables with
  | nil => intro key h hl; cases hl
  | cons e rest ih =>
    intro key h hl
    obtain ⟨k, v⟩ := e
    by_cases hk : k = key
    · subst hk
      rw [show lookupHandle k ((k, v) :: rest) = some v from by simp [lookupHandle]] at hl
      injection hl with hv
      exact hv ▸ List.mem_cons_self _ _
    · rw [show lookupHandle key ((k, v) :: rest) = lookupHandle key rest from by
        simp [lookupHandle, hk]] at hl
      exact List.mem_cons_of_mem _ (ih key h hl)

/-- A key absent from the cache keys looks up to nothing. -/
theorem lookupHandle_none_of_not_mem : ∀ (tables : List (String × Nat)) (key : String),
    key ∉ tables.map Prod.fst → lookupHandle key tables = none := by
  intro tables
  induction tables with
  | nil => intro key _; rfl
  | cons e rest ih =>
    intro key hkey
    obtain ⟨k, v⟩ := e
    simp only [List.map_cons, List.mem_cons, not_or] at hkey
    have hkc : ¬k = key := fun h => hkey.1 h.symm
    rw [show lookupHandle key ((k, v) :: rest) = lookupHandle key rest from by
      simp [lookupHandle, hkc]]
    exact ih key hkey.2

/-- After deleting a key from a duplicate-free cache, it is gone. -/
theorem lookupHandle_removeHandle : ∀ (tables : List (String × Nat)) (name : String),
    (tables.map Prod.fst).Nodup →
    lookupHandle name (removeHandle name tables) = none := by
  intro tables
  induction tables with
  | nil => intro name _; rfl
  | cons e rest ih =>
    intro name hnd
    obtain ⟨k, v⟩ := e
    simp only [List.map_cons, List.nodup_cons] at hnd
    by_cases hk : k = name
    · subst hk
      rw [show removeHandle k ((k, v) :: rest) = rest from by simp [removeHandle]]
      exact lookupHandle_none_of_not_mem rest k hnd.1
    · rw [show removeHandle name ((k, v) :: rest) = (k, v) :: removeHandle name rest from by
        simp [removeHandle, hk]]
      rw [show lookupHandle name ((k, v) :: removeHandle name rest)
          = lookupHandle name (removeHandle name rest) from by simp [lookupHandle, hk]]
      exact ih name hnd.2

/-- Claim C10.  The registry cache behaves as the set of names obtained via
`getitem` and not yet successfully dropped: a cached handle is returned
unchanged and never recreated (a second access returns the same handle and
the same state); a `getitem` adds exactly its key to the cache; a failed
DROP TABLE leaves the cache unchanged and propagates the error; a
successful drop executes `DROP TABLE <id>;`, evicts the handle, and a
later `getitem` constructs a fresh handle distinct from the dropped one. -/
theorem c10_registry_cache (conn : Conn) (st : Bean) (key name : String) (h0 : Nat)
    (hnd : (st.tables.map Prod.fst).Nodup)
    (hbound : ∀ p ∈ st.tables, p.2 < st.next) :
    (∀ hid, lookupHandle key st.tables = some hid → Databean.getitem st key = (st, hid))
    ∧ Databean.getitem (Databean.getitem st key).1 key
        = ((Databean.getitem st key).1, (Databean.getitem st key).2)
    ∧ (∀ k2, lookupHandle k2 (Databean.getitem st key).1.tables ≠ none
        ↔ (lookupHandle k2 st.tables ≠ none ∨ k2 = key))
    ∧ (∀ e, conn.execute ("DROP TABLE " ++ name ++ ";") [] = .error e →
        Table.drop conn st name
          = ((.error (.db e), st),
             [.acquire, .execute ("DROP TABLE " ++ name ++ ";") []]))
    ∧ (conn.execute ("DROP TABLE " ++ name ++ ";") [] = .ok () →
        lookupHandle name st.tables = some h0 →
        (Table.drop conn st name).1 = (.ok (), ⟨removeHandle name st.tables, st.next⟩)
        ∧ lookupHandle name (removeHandle name st.tables) = none
        ∧ (Databean.getitem ⟨removeHandle name st.tables, st.next⟩ name).2 = st.next
        ∧ h0 ≠ st.next) := by
  refine ⟨?_, ?_, ?_, ?_, ?_⟩
  · intro hid hl
    simp [Databean.getitem, hl]
  · cases hl : lookupHandle key st.tables with
    | some hid => simp [Databean.getitem, hl]
    | none =>
      have h2 : lookupHandle key (st.tables ++ [(key, st.next)]) = some st.next := by
        rw [lookupHandle_append, hl, if_pos rfl]
      simp [Databean.getitem, hl, h2]
  · intro k2
    cases hl : lookupHandle key st.tables with
    | some hid =>
      simp only [Databean.getitem, hl]
      constructor
      · intro h; exact Or.inl h
      · intro h
        rcases h with h | rfl
        · exact h
        · rw [hl]; exact fun hc => Option.noConfusion hc
    | none =>
      simp only [Databean.getitem, hl]
      rw [lookupHandle_append]
      cases hl2 : lookupHandle k2 st.tables with
      | some h2 => simp
      | none =>
        by_cases hk : key = k2
        · simp [hk]
        · have hk2 : ¬k2 = key := fun h => hk h.symm
          simp [hk, hk2]
  · intro e he
    simp [Table.drop, he]
  · intro hok hl
    refine ⟨by simp [Table.drop, hok, hl], lookupHandle_removeHandle st.tables name hnd,
      ?_, ?_⟩
    · have h2 : lookupHandle name (removeHandle name st.tables) = none :=
        lookupHandle_removeHandle st.tables name hnd
      simp [Databean.getitem, h2]
    · have hmem := lookupHandle_some_mem st.tables name h0 hl
      exact Nat.ne_of_lt (hbound (name, h0) hmem)

/-- Witness for claim C10 at a concrete registry state. -/
theorem c10_registry_cache_witness :
    (Table.drop okConn ⟨[("t", 0)], 1⟩ "t").1
      = (.ok (), (⟨removeHandle "t" [("t", 0)], 1⟩ : Bean))
    ∧ lookupHandle "t" (removeHandle "t" [("t", 0)]) = none
    ∧ (Databean.getitem ⟨removeHandle "t" [("t", 0)], 1⟩ "t").2 = 1
    ∧ 0 ≠ 1 :=
  (c10_registry_cache okConn ⟨[("t", 0)], 1⟩ "t" "t" 0
    (by simp) (by
      intro p hp
      rcases List.mem_singleton.mp hp with rfl
      decide)).2.2.2.2 rfl rfl

/-- Witness for claim C6 at concrete inputs. -/
theorem c6_ensure_schema_witness :
    (Table.ensure_beans okConn "t" [("a", PyVal.pyInt 1)]).2
      = [.acquire, .fetchrow pg_tables_query [.pyStr "t"],
         .execute (create_query "t" [("a", PyVal.pyInt 1)]) []] :=
  (c6_ensure_schema okConn "t" [("a", PyVal.pyInt 1)] []
    ⟨by decide, by decide⟩
    (by
      intro kv hkv
      rcases List.mem_singleton.mp hkv with rfl
      exact ⟨by decide, by decide⟩)
    (by simp) (by simp)).1 rfl

/-- Claim C7.  For a non-empty record the Insert builder produces exactly
`INSERT INTO <id>(<col1>, <col2>, ...) VALUES($1, $2, ...)` with one
positional placeholder per record key, and `insert` executes it with the
record values in key order, so value i is bound to placeholder i. -/
theorem c7_insert_builder (conn : Conn) (name : String) (kv : String × PyVal)
    (rest : List (String × PyVal)) (hname : WordOk name)
    (hkeys : ∀ p ∈ kv :: rest, WordOk p.1) :
    build_insert_query name (kv :: rest)
        = "INSERT INTO " ++ name ++ "(" ++ pyJoin ", " ((kv :: rest).map Prod.fst)
          ++ ") VALUES(" ++ pyJoin ", " ((List.range (kv :: rest).length).map
              (fun i => "$" ++ toString (i + 1))) ++ ")"
    ∧ toks (build_insert_query name (kv :: rest))
        = [w "INSERT", w "INTO", name.data] ++ (kv :: rest).map (fun p => p.1.data)
          ++ [w "VALUES"]
          ++ (List.range (kv :: rest).length).map (fun i => ('$' :: natData (i + 1) : List Char))
    ∧ ((List.range (kv :: rest).length).map (fun i => "$" ++ toString (i + 1))).length
        = (kv :: rest).length
    ∧ ((Table.ensure_beans conn name (kv :: rest)).1 = .ok () →
        (Table.insert conn name (kv :: rest)).2
          = (Table.ensure_beans conn name (kv :: rest)).2
            ++ [.acquire, .execute (build_insert_query name (kv :: rest))
                ((kv :: rest).map Prod.snd)]) := by
  have hkeym : ∀ k ∈ (kv :: rest).map Prod.fst, WordOk k := by
    intro k hk
    rcases List.mem_map.mp hk with ⟨p, hp, rfl⟩
    exact hkeys p hp
  have hphm : ∀ p ∈ (List.range (kv :: rest).length).map (fun i => "$" ++ toString (i + 1)),
      WordOk p := by
    intro p hp
    rcases List.mem_map.mp hp with ⟨i, _, rfl⟩
    constructor
    · show ('$' :: natData (i + 1)) ≠ []
      exact List.cons_ne_nil _ _
    · show ∀ c ∈ ('$' :: natData (i + 1)), isSepChar c = false
      intro c hc
      rcases List.mem_cons.mp hc with rfl | hc
      · decide
      · exact natData_not_sep _ c hc
  refine ⟨?_, ?_, by simp, ?_⟩
  · apply String.ext
    simp [build_insert_query, str_data_append, List.append_assoc]
  · show toksGo (build_insert_query name (kv :: rest)).data [] = _
    rw [insert_query_data, segs_eval _ _
        (insertSegs_wf name _ _ hname.2 (fun k hk => (hkeym k hk).2)
          (fun p hp => (hphm p hp).2)),
      insertSegs_eval name _ _ hname.1 (fun k hk => (hkeym k hk).1)
        (fun p hp => (hphm p hp).1)]
    simp [List.map_map, Function.comp_def, natData, str_data_append]
  · intro h
    simp [Table.insert, h]

/-- Witness for claim C7 at concrete inputs. -/
theorem c7_insert_builder_witness :
    build_insert_query "t" [("a", PyVal.pyInt 1), ("b", PyVal.pyStr "x")]
        = "INSERT INTO " ++ "t" ++ "(" ++ pyJoin ", "
            ([("a", PyVal.pyInt 1), ("b", PyVal.pyStr "x")].map Prod.fst)
          ++ ") VALUES(" ++ pyJoin ", " ((List.range
              ([("a", PyVal.pyInt 1), ("b", PyVal.pyStr "x")] : List (String × PyVal)).length).map
              (fun i => "$" ++ toString (i + 1))) ++ ")" :=
  (c7_insert_builder okConn "t" ("a", .pyInt 1) [("b", .pyStr "x")]
    ⟨by decide, by decide⟩
    (by
      intro p hp
      rcases List.mem_cons.mp hp with rfl | hp
      · exact ⟨by decide, by decide⟩
      · rcases List.mem_singleton.mp hp with rfl
        exact ⟨by decide, by decide⟩)).1

/-- Witness for claim C9 at concrete inputs. -/
theorem c9_select_builder_and_bypass_witness :
    (∃ q, build_select_query "t" [("a", PyVal.pyInt 1), ("b", PyVal.pyInt 2)] = .ok q
       ∧ toks q = [w "SELECT", w "*", w "FROM", "t".data, w "WHERE", "a".data, w "=", w "$1"]
           ++ (pyEnumerate 2 ([("b", PyVal.pyInt 2)].map Prod.fst)).flatMap
             (fun p => [w "AND", p.2.data, w "=", '$' :: natData p.1])
       ∧ (Table.find okConn "t" [("a", PyVal.pyInt 1), ("b", PyVal.pyInt 2)]).2
           = [.acquire, .fetch q ([("a", PyVal.pyInt 1), ("b", PyVal.pyInt 2)].map Prod.snd)])
    ∧ (Table.find okConn "t" []).2
        = [.acquire, .acquire, .fetch ("SELECT * FROM " ++ "t" ++ ";") []]
    ∧ (Table.find_one okConn "t" []).2
        = [.acquire, .fetchrow ("SELECT * FROM " ++ "t" ++ " LIMIT 1;") []] :=
  c9_select_builder_and_bypass okConn "t" "a" (.pyInt 1) [("b", .pyInt 2)]
    ⟨by decide, by decide⟩ ⟨by decide, by decide⟩
    (by intro kv hkv; rcases List.mem_singleton.mp hkv with rfl
        exact ⟨by decide, by decide⟩)
